import Mathlib

/-! CartoType base geometry.

A shallow embedding of the geometry kernel of `cartotype_base.h` (the point
classes `TPoint`, `TPoint2<T>`, `TPoint3<T>`, the rectangles `TRect` and
`TRectFP`, the big-endian sample functions, `InterpolatedValue` and
`GreatCircleDistanceInMeters`) and theorems about them.

Conventions of the embedding:

* `int32` coordinates are integers (`Int`); the int32 range is the predicate
  `InInt32`, used where a statement quantifies over points. The operations
  modelled below only compare and copy coordinates, so no overflow can occur.
* C++ `bool` functions are `Bool`-valued functions.
* A C++ member function that mutates `*this` is a function returning the
  new value of the receiver.
* `TRectFP` has `double` coordinates. Its member functions only compare and
  copy coordinates, which is exact on doubles, and the comparisons of doubles
  other than NaN form a linear order. The embedding takes the coordinate type
  as a parameter `T` with a linear order; concrete inputs use the rationals.
* Where the source computes with `double` values (`InterpolatedValue`,
  `GreatCircleDistanceInMeters`, the vector functions), the arithmetic is the
  exact arithmetic of an ordered ring or field `T`; rounding is not modelled,
  and statements that depend on exact equalities of computed values (such as
  sin^2 + cos^2 = 1) are not claimed for the `double` program.
  Library functions (`sqrt`, `sin`, `cos`, `acos`) are parameters of the
  definitions and are instantiated with the real functions in the theorems.
* Overloaded operators are named `opEq`, `opLt`, `opGt`.
* `Reverse` works on an array given as a function from offsets to elements;
  its pointers are offsets from the initial `aStart`.
* The segment test `TRect::Intersects(aStart, aEnd, ...)` is declared but not
  defined in the source; `TRect.IntersectsSegment` models it from the
  specification, on top of the source's `Region`.
-/

namespace CartoType

/-! ## Points -/

/-- The range of the C++ type `int32`. -/
def InInt32 (v : Int) : Prop := -2147483648 ≤ v ∧ v ≤ 2147483647

instance (v : Int) : Decidable (InInt32 v) := by
  unfold InInt32; exact inferInstance

/-- `class TPoint`: a point in two-dimensional space with `int32` coordinates. -/
structure TPoint where
  /-- The x coordinate. -/
  iX : Int
  /-- The y coordinate. -/
  iY : Int
deriving DecidableEq

/-- Both coordinates of the point are `int32` values. -/
def TPoint.InRange (p : TPoint) : Prop := InInt32 p.iX ∧ InInt32 p.iY

instance (p : TPoint) : Decidable p.InRange := by
  unfold TPoint.InRange; exact inferInstance

/-- `template<class T> class TPoint2`: a 2D point or vector with coordinates of type `T`. -/
structure TPoint2 (T : Type) where
  /-- The x coordinate. -/
  iX : T
  /-- The y coordinate. -/
  iY : T
deriving DecidableEq

/-! ## The integer rectangle `TRect` -/

/-- `class TRect`: a rectangle defined by its top-left and bottom-right corners. -/
structure TRect where
  /-- The top left corner. -/
  iTopLeft : TPoint
  /-- The bottom right corner. -/
  iBottomRight : TPoint
deriving DecidableEq

namespace TRect

/-- `TRect(int32 aLeft,int32 aTop,int32 aRight,int32 aBottom)`. -/
def mk4 (aLeft aTop aRight aBottom : Int) : TRect :=
  ⟨⟨aLeft, aTop⟩, ⟨aRight, aBottom⟩⟩

/-- All four edges of the rectangle are `int32` values. -/
def InRange (r : TRect) : Prop := r.iTopLeft.InRange ∧ r.iBottomRight.InRange

instance (r : TRect) : Decidable r.InRange := by
  unfold TRect.InRange; exact inferInstance

/-- `int32 Left() const`. -/
def Left (r : TRect) : Int := r.iTopLeft.iX

/-- `int32 Top() const`. -/
def Top (r : TRect) : Int := r.iTopLeft.iY

/-- `int32 Right() const`. -/
def Right (r : TRect) : Int := r.iBottomRight.iX

/-- `int32 Bottom() const`. -/
def Bottom (r : TRect) : Int := r.iBottomRight.iY

/-- `bool IsEmpty() const { return Left() >= Right() || Top() >= Bottom(); }`. -/
def IsEmpty (r : TRect) : Bool :=
  decide (r.Left ≥ r.Right) || decide (r.Top ≥ r.Bottom)

/-- `bool Contains(const TPoint& aPoint) const`: half-open containment of a point. -/
def Contains (r : TRect) (aPoint : TPoint) : Bool :=
  decide (aPoint.iX ≥ r.iTopLeft.iX) && decide (aPoint.iY ≥ r.iTopLeft.iY) &&
    decide (aPoint.iX < r.iBottomRight.iX) && decide (aPoint.iY < r.iBottomRight.iY)

/-- `bool Contains(const TRect& aRect) const`: the overload taking a rectangle. -/
def ContainsRect (r aRect : TRect) : Bool :=
  decide (r.iTopLeft.iX ≤ aRect.iTopLeft.iX) &&
    decide (r.iTopLeft.iY ≤ aRect.iTopLeft.iY) &&
    decide (r.iBottomRight.iX ≥ aRect.iBottomRight.iX) &&
    decide (r.iBottomRight.iY ≥ aRect.iBottomRight.iY)

/-- `static constexpr unsigned KLeftRegion = 1;`. -/
def KLeftRegion : Nat := 1

/-- `static constexpr unsigned KRightRegion = 1;`. -/
def KRightRegion : Nat := 1

/-- `static constexpr unsigned KTopRegion = 1;`. -/
def KTopRegion : Nat := 1

/-- `static constexpr unsigned KBottomRegion = 1;`. -/
def KBottomRegion : Nat := 1

/-- `static constexpr unsigned KTopLeftRegion = KTopRegion | KLeftRegion;`. -/
def KTopLeftRegion : Nat := KTopRegion ||| KLeftRegion

/-- `static constexpr unsigned KTopRightRegion = KTopRegion | KRightRegion;`. -/
def KTopRightRegion : Nat := KTopRegion ||| KRightRegion

/-- `static constexpr unsigned KBottomLeftRegion = KBottomRegion | KLeftRegion;`. -/
def KBottomLeftRegion : Nat := KBottomRegion ||| KLeftRegion

/-- `static constexpr unsigned KBottomRightRegion = KBottomRegion | KRightRegion;`. -/
def KBottomRightRegion : Nat := KBottomRegion ||| KRightRegion

/--
`int32 Region(const TPoint& aPoint) const`: the region of a point relative to
the rectangle. The result is a bitwise OR of the region constants, so it is
never negative and is given as a natural number.
-/
def Region (r : TRect) (aPoint : TPoint) : Nat :=
  let region : Nat :=
    if aPoint.iX ≤ r.iTopLeft.iX then KLeftRegion
    else if aPoint.iX ≥ r.iBottomRight.iX then KRightRegion
    else 0
  if aPoint.iY ≤ r.iTopLeft.iY then region ||| KTopRegion
  else if aPoint.iY ≥ r.iBottomRight.iY then region ||| KBottomRegion
  else region

end TRect

/-! ## The floating-point rectangle `TRectFP` -/

/--
`class TRectFP`: a rectangle defined by its top-left (minimum coordinates) and
bottom-right (maximum coordinates) corners, of type `TPointFP = TPoint2<double>`
in the source. `T` is the coordinate type.
-/
structure TRectFP (T : Type) where
  /-- The top left corner. -/
  iTopLeft : TPoint2 T
  /-- The bottom right corner. -/
  iBottomRight : TPoint2 T
deriving DecidableEq

namespace TRectFP

variable {T : Type} [LinearOrder T]

/-- `TRectFP(double aMinX,double aMinY,double aMaxX,double aMaxY)`. -/
def mk4 (aMinX aMinY aMaxX aMaxY : T) : TRectFP T :=
  ⟨⟨aMinX, aMinY⟩, ⟨aMaxX, aMaxY⟩⟩

/-- `double Left() const`. -/
def Left (r : TRectFP T) : T := r.iTopLeft.iX

/-- `double Top() const`. -/
def Top (r : TRectFP T) : T := r.iTopLeft.iY

/-- `double Right() const`. -/
def Right (r : TRectFP T) : T := r.iBottomRight.iX

/-- `double Bottom() const`. -/
def Bottom (r : TRectFP T) : T := r.iBottomRight.iY

/-- `bool IsEmpty() const { return Left() >= Right() || Top() >= Bottom(); }`. -/
def IsEmpty (r : TRectFP T) : Bool :=
  decide (r.Left ≥ r.Right) || decide (r.Top ≥ r.Bottom)

/-- `bool Contains(const TPointFP& aPoint) const`: half-open containment of a point. -/
def Contains (r : TRectFP T) (aPoint : TPoint2 T) : Bool :=
  decide (aPoint.iX ≥ r.iTopLeft.iX) && decide (aPoint.iY ≥ r.iTopLeft.iY) &&
    decide (aPoint.iX < r.iBottomRight.iX) && decide (aPoint.iY < r.iBottomRight.iY)

/-- `bool Contains(const TRectFP& aRect) const`: the overload taking a rectangle. -/
def ContainsRect (r aRect : TRectFP T) : Bool :=
  decide (r.iTopLeft.iX ≤ aRect.iTopLeft.iX) &&
    decide (r.iTopLeft.iY ≤ aRect.iTopLeft.iY) &&
    decide (r.iBottomRight.iX ≥ aRect.iBottomRight.iX) &&
    decide (r.iBottomRight.iY ≥ aRect.iBottomRight.iY)

/--
`void Combine(const TRectFP& aRect)`: the value of the receiver after the call.
The four conditional assignments of the innermost branch each read and write
one edge only, so they are given as the four edges of the result.
-/
def Combine (r aRect : TRectFP T) : TRectFP T :=
  if !aRect.IsEmpty then
    if r.IsEmpty then aRect
    else
      { iTopLeft :=
          { iX := if aRect.iTopLeft.iX < r.iTopLeft.iX then aRect.iTopLeft.iX
                  else r.iTopLeft.iX
            iY := if aRect.iTopLeft.iY < r.iTopLeft.iY then aRect.iTopLeft.iY
                  else r.iTopLeft.iY }
        iBottomRight :=
          { iX := if aRect.iBottomRight.iX > r.iBottomRight.iX then aRect.iBottomRight.iX
                  else r.iBottomRight.iX
            iY := if aRect.iBottomRight.iY > r.iBottomRight.iY then aRect.iBottomRight.iY
                  else r.iBottomRight.iY } }
  else r

/--
`void Intersection(const TRectFP& aRect)`: the value of the receiver after the
call. Each conditional assignment reads and writes one edge only.
-/
def Intersection (r aRect : TRectFP T) : TRectFP T :=
  { iTopLeft :=
      { iX := if r.iTopLeft.iX < aRect.iTopLeft.iX then aRect.iTopLeft.iX
              else r.iTopLeft.iX
        iY := if r.iTopLeft.iY < aRect.iTopLeft.iY then aRect.iTopLeft.iY
              else r.iTopLeft.iY }
    iBottomRight :=
      { iX := if r.iBottomRight.iX > aRect.iBottomRight.iX then aRect.iBottomRight.iX
              else r.iBottomRight.iX
        iY := if r.iBottomRight.iY > aRect.iBottomRight.iY then aRect.iBottomRight.iY
              else r.iBottomRight.iY } }

/-- `bool Intersects(const TRectFP& aRect) const`. -/
def Intersects (r aRect : TRectFP T) : Bool :=
  decide (r.iTopLeft.iX < aRect.iBottomRight.iX) &&
    decide (r.iBottomRight.iX > aRect.iTopLeft.iX) &&
    decide (r.iTopLeft.iY < aRect.iBottomRight.iY) &&
    decide (r.iBottomRight.iY > aRect.iTopLeft.iY)

end TRectFP

/-! ## `TRectFP::Combine(const TPointFP&)` -/

namespace TRectFP

variable {T : Type} [LinearOrder T]

/--
`void Combine(const TPointFP& aPoint)`: the value of the receiver after the
call. Each conditional assignment reads and writes one edge only.
-/
def CombinePoint (r : TRectFP T) (aPoint : TPoint2 T) : TRectFP T :=
  { iTopLeft :=
      { iX := if aPoint.iX < r.iTopLeft.iX then aPoint.iX else r.iTopLeft.iX
        iY := if aPoint.iY < r.iTopLeft.iY then aPoint.iY else r.iTopLeft.iY }
    iBottomRight :=
      { iX := if aPoint.iX > r.iBottomRight.iX then aPoint.iX else r.iBottomRight.iX
        iY := if aPoint.iY > r.iBottomRight.iY then aPoint.iY else r.iBottomRight.iY } }

end TRectFP

/-! ## Point operators and vector functions -/

namespace TPoint

/-- `bool operator==(const TPoint& aPoint) const`. -/
def opEq (p aPoint : TPoint) : Bool :=
  decide (p.iX = aPoint.iX) && decide (p.iY = aPoint.iY)

/-- `bool operator<(const TPoint& aPoint) const`. -/
def opLt (p aPoint : TPoint) : Bool :=
  decide (p.iX < aPoint.iX) || (decide (p.iX = aPoint.iX) && decide (p.iY < aPoint.iY))

/-- `bool operator>(const TPoint& aPoint) const`. -/
def opGt (p aPoint : TPoint) : Bool :=
  decide (p.iX > aPoint.iX) || (decide (p.iX = aPoint.iX) && decide (p.iY > aPoint.iY))

end TPoint

namespace TPoint2

variable {T : Type}

/-- `bool operator==(const TPoint2<T>& aPoint) const`. -/
def opEq [LinearOrder T] (p aPoint : TPoint2 T) : Bool :=
  decide (p.iX = aPoint.iX) && decide (p.iY = aPoint.iY)

/-- `bool operator<(const TPoint2<T>& aPoint) const`. -/
def opLt [LinearOrder T] (p aPoint : TPoint2 T) : Bool :=
  if p.iX < aPoint.iX then true
  else if p.iX > aPoint.iX then false
  else if p.iY < aPoint.iY then true
  else false

/-- `bool operator>(const TPoint2<T>& aPoint) const`. -/
def opGt [LinearOrder T] (p aPoint : TPoint2 T) : Bool :=
  if p.iX > aPoint.iX then true
  else if p.iX < aPoint.iX then false
  else if p.iY > aPoint.iY then true
  else false

/--
`T VectorLength() const { return sqrt(iX * iX + iY * iY); }`. The library
function `sqrt` is a parameter.
-/
def VectorLength [Add T] [Mul T] (sqrt : T → T) (p : TPoint2 T) : T :=
  sqrt (p.iX * p.iX + p.iY * p.iY)

/-- `T CrossProduct(const TPoint2<T>& aOther) const`. -/
def CrossProduct [Mul T] [Sub T] (p aOther : TPoint2 T) : T :=
  p.iX * aOther.iY - p.iY * aOther.iX

/--
`TPoint2 UnitVector() const`: the vector divided by its length when the length
is positive, and (1,0) otherwise.
-/
def UnitVector [LinearOrder T] [Zero T] [One T] [Add T] [Mul T] [Div T]
    (sqrt : T → T) (p : TPoint2 T) : TPoint2 T :=
  let length := p.VectorLength sqrt
  if length > 0 then ⟨p.iX / length, p.iY / length⟩
  else ⟨1, 0⟩

/-- `bool LeftOfVector(const TPoint2<T>& aPoint) const`. -/
def LeftOfVector [LinearOrder T] [Zero T] [Mul T] [Sub T] (p aPoint : TPoint2 T) : Bool :=
  decide (p.CrossProduct aPoint > 0)

/-- `bool RightOfVector(const TPoint2<T>& aPoint) const`. -/
def RightOfVector [LinearOrder T] [Zero T] [Mul T] [Sub T] (p aPoint : TPoint2 T) : Bool :=
  decide (p.CrossProduct aPoint < 0)

end TPoint2

/-- `template<class T> class TPoint3`: a 3D point with coordinates of type `T`. -/
structure TPoint3 (T : Type) where
  /-- The x coordinate. -/
  iX : T
  /-- The y coordinate. -/
  iY : T
  /-- The z coordinate. -/
  iZ : T
deriving DecidableEq

namespace TPoint3

variable {T : Type}

/-- `bool operator==(const TPoint3<T>& aPoint) const`. -/
def opEq [LinearOrder T] (p aPoint : TPoint3 T) : Bool :=
  decide (p.iX = aPoint.iX) && decide (p.iY = aPoint.iY) && decide (p.iZ = aPoint.iZ)

/-- `bool operator<(const TPoint3<T>& aPoint) const`. -/
def opLt [LinearOrder T] (p aPoint : TPoint3 T) : Bool :=
  if p.iX < aPoint.iX then true
  else if p.iX > aPoint.iX then false
  else if p.iY < aPoint.iY then true
  else if p.iY > aPoint.iY then false
  else if p.iZ < aPoint.iZ then true
  else false

/--
`T VectorLength() const { return sqrt(iX * iX + iY * iY + iZ * iZ); }`. The
library function `sqrt` is a parameter.
-/
def VectorLength [Add T] [Mul T] (sqrt : T → T) (p : TPoint3 T) : T :=
  sqrt (p.iX * p.iX + p.iY * p.iY + p.iZ * p.iZ)

/--
`TPoint3 UnitVector() const`: the vector divided by its length when the length
is positive, and (1,0,0) otherwise.
-/
def UnitVector [LinearOrder T] [Zero T] [One T] [Add T] [Mul T] [Div T]
    (sqrt : T → T) (p : TPoint3 T) : TPoint3 T :=
  let length := p.VectorLength sqrt
  if length > 0 then ⟨p.iX / length, p.iY / length, p.iZ / length⟩
  else ⟨1, 0, 0⟩

end TPoint3

/-! ## Geo utilities -/

/-- `constexpr int32 KEquatorialRadiusInMetres = 6378137;`. -/
def KEquatorialRadiusInMetres : Int := 6378137

/-- `constexpr double KPiDouble = 3.141592654;`, the decimal constant as written. -/
def KPiDouble (T : Type) [DivisionRing T] : T := 3141592654 / 1000000000

/-- `constexpr double KDegreesToRadiansDouble = KPiDouble / 180.0;`. -/
def KDegreesToRadiansDouble (T : Type) [DivisionRing T] : T := KPiDouble T / 180

/--
`double GreatCircleDistanceInMeters(double aLong1,double aLat1,double aLong2,double aLat2)`.
The library functions `std::sin`, `std::cos` and `std::acos` are parameters;
`double` arithmetic is the arithmetic of the ordered field `T`. Rounding is
not modelled, so a property of this definition transfers to the source only
where it does not hinge on an exact identity between rounded quantities (the
guard `cos_angle >= 1` is such a place).
-/
def GreatCircleDistanceInMeters {T : Type} [LinearOrderedField T] (sin cos acos : T → T)
    (aLong1 aLat1 aLong2 aLat2 : T) : T :=
  let aLong1 := aLong1 * KDegreesToRadiansDouble T
  let aLat1 := aLat1 * KDegreesToRadiansDouble T
  let aLong2 := aLong2 * KDegreesToRadiansDouble T
  let aLat2 := aLat2 * KDegreesToRadiansDouble T
  let cos_angle := sin aLat1 * sin aLat2 + cos aLat1 * cos aLat2 * cos (aLong2 - aLong1)
  if cos_angle ≥ 1 then 0
  else
    let angle := acos cos_angle
    angle * (KEquatorialRadiusInMetres : T)

/-! ## Big-endian 16-bit samples -/

/-- The conversion `(int16)` of an `int`: the two's-complement value of its low 16 bits. -/
def toInt16 (v : Int) : Int := (v + 32768) % 65536 - 32768

/-- The conversion `(uint8)` of an `int`: its low 8 bits. -/
def toUint8 (v : Int) : Nat := (v % 256).toNat

/--
`int16 ReadBigEndian(const int16* aP)`: `b0` and `b1` are the bytes
`((const uint8*)aP)[0]` and `((const uint8*)aP)[1]`.
-/
def ReadBigEndian (b0 b1 : Nat) : Int :=
  toInt16 (((b0 <<< 8) ||| b1 : Nat) : Int)

/--
`void WriteBigEndian(int16* aP,int16 aValue)`: the pair of bytes stored at
`((uint8*)aP)[0]` and `((uint8*)aP)[1]`. The shift of a negative value is the
arithmetic shift.
-/
def WriteBigEndian (aValue : Int) : Nat × Nat :=
  (toUint8 (aValue >>> (8 : Nat)), toUint8 aValue)

/-! ## Raster sampler -/

section Sampler

variable {T : Type} [LinearOrderedField T] [FloorRing T]

/-- The conversion `(int)` of a `double`: truncation toward zero. -/
def truncToInt (x : T) : Int := if 0 ≤ x then ⌊x⌋ else ⌈x⌉

/--
`template<class DataType,int UnknownValue> double InterpolatedValue(...)`.
`aDataStart i` is the sample `ReadBigEndian(aDataStart + i)`; `double`
arithmetic is the arithmetic of the ordered field `T` and `int` arithmetic is
that of the integers.
-/
def InterpolatedValue (UnknownValue : Int) (aDataStart : Int → Int)
    (aWidth aHeight aStride aChannels : Int) (aX aY : T) (aChannel : Int) : T :=
  let x_fraction : T := 1 - (aX - (⌊aX⌋ : T))
  let x_fraction : T := if truncToInt aX = aWidth - 1 then 1 else x_fraction
  let y_fraction : T := 1 - (aY - (⌊aY⌋ : T))
  let y_fraction : T := if truncToInt aY = aHeight - 1 then 1 else y_fraction
  let index : Int := truncToInt aY * aWidth * aChannels + truncToInt aX * aChannels + aChannel
  let top_value : T := (aDataStart index : T)
  let top_value : T :=
    if x_fraction < 1 then
      let top_right_value : T := (aDataStart (index + aChannels) : T)
      if top_right_value ≠ (UnknownValue : T) then
        top_value * x_fraction + top_right_value * (1 - x_fraction)
      else top_value
    else top_value
  let value : T := top_value
  if y_fraction < 1 then
    let index : Int := index + aStride * aChannels
    let bottom_value : T := (aDataStart index : T)
    let bottom_value : T :=
      if x_fraction < 1 then
        let bottom_right_value : T := (aDataStart (index + aChannels) : T)
        if bottom_right_value ≠ (UnknownValue : T) then
          bottom_value * x_fraction + bottom_right_value * (1 - x_fraction)
        else bottom_value
      else bottom_value
    if bottom_value ≠ (UnknownValue : T) then
      top_value * y_fraction + bottom_value * (1 - y_fraction)
    else value
  else value

/-- The index of the sample of channel `k` at column `col` and row `row` of a grid
with `aWidth` columns and `aChannels` channels per item. -/
def sampleIndex (aWidth aChannels col row k : Int) : Int :=
  (row * aWidth + col) * aChannels + k

end Sampler

/-! ## Further member functions of the point and rectangle classes -/

namespace TPoint2

variable {T : Type}

/-- `TPoint2 LeftUnitVector() const`: the unit vector pointing 90 degrees left. -/
def LeftUnitVector [LinearOrder T] [Zero T] [One T] [Add T] [Mul T] [Div T] [Neg T]
    (sqrt : T → T) (p : TPoint2 T) : TPoint2 T :=
  let u := p.UnitVector sqrt
  ⟨-u.iY, u.iX⟩

/-- `TPoint2 RightUnitVector() const`: the unit vector pointing 90 degrees right. -/
def RightUnitVector [LinearOrder T] [Zero T] [One T] [Add T] [Mul T] [Div T] [Neg T]
    (sqrt : T → T) (p : TPoint2 T) : TPoint2 T :=
  let u := p.UnitVector sqrt
  ⟨u.iY, -u.iX⟩

end TPoint2

/-- The conversion of an integer to `uint64`: its value modulo 2^64. -/
def toUint64 (v : Int) : Nat := (v % 18446744073709551616).toNat

/--
`uint64 ComparisonValue() const { return (uint64(iX) << 32) + uint64(iY); }`,
with the shift and the sum taken modulo 2^64.
-/
def TPoint.ComparisonValue (p : TPoint) : Nat :=
  ((toUint64 p.iX <<< 32) % 18446744073709551616 + toUint64 p.iY) % 18446744073709551616

/-- The value of an `int32` result computed as the integer `v`: wrapped to 32 bits. -/
def toInt32 (v : Int) : Int := (v + 2147483648) % 4294967296 - 2147483648

/--
`TPoint Center() const`: the sums are `int32` sums (wrapped by `toInt32`; the
theorems assume that they do not overflow) and `/ 2` is the C++ integer
division, which truncates toward zero.
-/
def TRect.Center (r : TRect) : TPoint :=
  ⟨(toInt32 (r.iTopLeft.iX + r.iBottomRight.iX)).tdiv 2,
    (toInt32 (r.iTopLeft.iY + r.iBottomRight.iY)).tdiv 2⟩

/--
Modelled from the spec: `bool TRect::Intersects(const TPoint& aStart,const TPoint& aEnd,
TPoint* aIntersectionStart,TPoint* aIntersectionEnd) const`, which the source
declares but does not define. Following section 4.2 of the specification, the
outcodes of both endpoints are computed with `Region`; if they share a set bit
the segment is rejected (`none`, the call returns false); if both are zero the
segment is accepted unchanged (`some` of the two endpoints, the call returns
true and stores them). Otherwise the outside endpoints are replaced by
intersections with the boundary lines, at most four times; the specification
fixes neither the order of the boundaries, nor the rounding, nor the result
after the fourth replacement, so this part is the parameter `aClipOutside`.
-/
def TRect.IntersectsSegment
    (aClipOutside : TRect → TPoint → TPoint → Option (TPoint × TPoint))
    (r : TRect) (aStart aEnd : TPoint) : Option (TPoint × TPoint) :=
  let startRegion := r.Region aStart
  let endRegion := r.Region aEnd
  if startRegion &&& endRegion ≠ 0 then none
  else if startRegion = 0 ∧ endRegion = 0 then some (aStart, aEnd)
  else aClipOutside r aStart aEnd

/-! ## `Reverse` -/

section ReverseDefs

variable {T : Type}

/--
The loop of `Reverse`: `while (aStart < end) { swap *aStart and *end; aStart++; end--; }`.
The array is a function from offsets (relative to the initial `aStart`) to
elements, and the two pointers are offsets.
-/
def ReverseLoop (mem : Nat → T) (aStart aEnd : Nat) : Nat → T :=
  if aStart < aEnd then
    ReverseLoop
      (fun k => if k = aStart then mem aEnd else if k = aEnd then mem aStart else mem k)
      (aStart + 1) (aEnd - 1)
  else mem
termination_by aEnd - aStart

/-- `template<class T> void Reverse(T* aStart,size_t aLength)`: the array after the call. -/
def Reverse (mem : Nat → T) (aLength : Nat) : Nat → T :=
  if aLength > 1 then ReverseLoop mem 0 (aLength - 1) else mem

end ReverseDefs

/-! ## Sample indices read by `InterpolatedValue` -/

/-- The indices of the samples that one call of `InterpolatedValue` reads. -/
structure SampleReads where
  /-- The index of `top_value`, always read. -/
  topLeft : Int
  /-- The index of `top_right_value`, if it is read. -/
  topRight : Option Int
  /-- The index of `bottom_value`, if it is read. -/
  bottomLeft : Option Int
  /-- The index of `bottom_right_value`, if it is read. -/
  bottomRight : Option Int
deriving DecidableEq

/-- All indices read, in the order of the reads. -/
def SampleReads.toList (s : SampleReads) : List Int :=
  s.topLeft :: (s.topRight.toList ++ s.bottomLeft.toList ++ s.bottomRight.toList)

section SamplerReads

variable {T : Type} [LinearOrderedField T] [FloorRing T]

/--
The arguments of the calls `ReadBigEndian(aDataStart + ...)` made by
`InterpolatedValue`, with the conditions under which each call is made. None
of the conditions depends on the data.
-/
def InterpolatedValueReads (aWidth aHeight aStride aChannels : Int) (aX aY : T)
    (aChannel : Int) : SampleReads :=
  let x_fraction : T := 1 - (aX - (⌊aX⌋ : T))
  let x_fraction : T := if truncToInt aX = aWidth - 1 then 1 else x_fraction
  let y_fraction : T := 1 - (aY - (⌊aY⌋ : T))
  let y_fraction : T := if truncToInt aY = aHeight - 1 then 1 else y_fraction
  let index : Int := truncToInt aY * aWidth * aChannels + truncToInt aX * aChannels + aChannel
  { topLeft := index
    topRight := if x_fraction < 1 then some (index + aChannels) else none
    bottomLeft := if y_fraction < 1 then some (index + aStride * aChannels) else none
    bottomRight :=
      if y_fraction < 1 then
        if x_fraction < 1 then some (index + aStride * aChannels + aChannels) else none
      else none }

end SamplerReads

/-! ## Example data -/

/-- The 2×2 single-channel grid `[[0,10],[20,30]]`, stored row by row. -/
def exampleGrid (i : Int) : Int :=
  if i = 0 then 0 else if i = 1 then 10 else if i = 2 then 20 else if i = 3 then 30 else 0

/-- The grid `[[-32768,10],[20,30]]`, whose top-left sample is the unknown value -32768. -/
def exampleGridUnknown (i : Int) : Int :=
  if i = 0 then -32768 else if i = 1 then 10 else if i = 2 then 20 else if i = 3 then 30
  else 0

/-! ## Helper predicate -/

/-- Exactly one of three propositions holds. -/
def ExactlyOne (p q r : Prop) : Prop :=
  (p ∧ ¬ q ∧ ¬ r) ∨ (¬ p ∧ q ∧ ¬ r) ∨ (¬ p ∧ ¬ q ∧ r)

/-! ## Auxiliary facts: conditional assignment is `max` / `min` -/

section Aux

variable {T : Type} [LinearOrder T]

theorem ite_lt_eq_max (a b : T) : (if a < b then b else a) = max a b := by
  split_ifs with h
  · exact (max_eq_right (le_of_lt h)).symm
  · exact (max_eq_left (not_lt.mp h)).symm

theorem ite_gt_eq_min (a b : T) : (if a > b then b else a) = min a b := by
  split_ifs with h
  · exact (min_eq_right (le_of_lt h)).symm
  · exact (min_eq_left (not_lt.mp h)).symm

end Aux

/-! ## Theorems about `TRect` -/

/--
C1, as stated, fails: the point (0,5) on the left edge of the rectangle
(0,0,10,10) is contained, but its region is `KLeftRegion`, not 0.
-/
theorem Contains_iff_Region_zero_fails :
    ¬ ((TRect.mk4 0 0 10 10).Contains ⟨0, 5⟩ = true ↔
        (TRect.mk4 0 0 10 10).Region ⟨0, 5⟩ = 0) := by
  decide

/--
C1, amended: for every rectangle R and point P, `R.Region(P) == 0` holds if and
only if `R.Contains(P)` holds and P is neither on the left edge nor on the top
edge of R. In particular region 0 implies containment.
-/
theorem Region_eq_zero_iff_Contains_off_min_edges (R : TRect) (P : TPoint) :
    R.Region P = 0 ↔ (R.Contains P = true ∧ P.iX ≠ R.Left ∧ P.iY ≠ R.Top) := by
  simp only [TRect.Region, TRect.Contains, TRect.Left, TRect.Top, TRect.KLeftRegion,
    TRect.KRightRegion, TRect.KTopRegion, TRect.KBottomRegion, Bool.and_eq_true,
    decide_eq_true_eq]
  split_ifs <;> simp <;> omega

/--
C2: the four region constants of the source all have the value 1, so they are
not pairwise distinct and any two of them share their only set bit; the
composite corner constants collapse to 1 as well.
-/
theorem region_constants_coincide :
    TRect.KLeftRegion = 1 ∧ TRect.KRightRegion = 1 ∧
    TRect.KTopRegion = 1 ∧ TRect.KBottomRegion = 1 ∧
    TRect.KLeftRegion &&& TRect.KRightRegion ≠ 0 ∧
    TRect.KTopRegion &&& TRect.KBottomRegion ≠ 0 ∧
    TRect.KLeftRegion &&& TRect.KTopRegion ≠ 0 ∧
    TRect.KTopLeftRegion = 1 ∧ TRect.KTopRightRegion = 1 ∧
    TRect.KBottomLeftRegion = 1 ∧ TRect.KBottomRightRegion = 1 := by
  decide

/--
C3: with the rectangle (0,0,10,10), P = (-5,5) left of it and Q = (15,5) right
of it, the two regions computed by the source share a set bit although P and Q
lie on the outer side of no common boundary line.
-/
theorem Region_shared_bit_without_common_side :
    (TRect.mk4 0 0 10 10).Region ⟨-5, 5⟩ = 1 ∧
    (TRect.mk4 0 0 10 10).Region ⟨15, 5⟩ = 1 ∧
    (TRect.mk4 0 0 10 10).Region ⟨-5, 5⟩ &&& (TRect.mk4 0 0 10 10).Region ⟨15, 5⟩ ≠ 0 ∧
    ¬ (((-5 : Int) ≤ (TRect.mk4 0 0 10 10).Left ∧ (15 : Int) ≤ (TRect.mk4 0 0 10 10).Left) ∨
       ((-5 : Int) ≥ (TRect.mk4 0 0 10 10).Right ∧ (15 : Int) ≥ (TRect.mk4 0 0 10 10).Right) ∨
       ((5 : Int) ≤ (TRect.mk4 0 0 10 10).Top ∧ (5 : Int) ≤ (TRect.mk4 0 0 10 10).Top) ∨
       ((5 : Int) ≥ (TRect.mk4 0 0 10 10).Bottom ∧ (5 : Int) ≥ (TRect.mk4 0 0 10 10).Bottom)) := by
  decide

/--
C4, as stated, fails: the empty rectangle B = (20,20,20,20) contains no point,
so every point of B is in A = (0,0,10,10), yet `A.Contains(B)` is false.
-/
theorem ContainsRect_iff_points_fails :
    ¬ ((TRect.mk4 0 0 10 10).ContainsRect (TRect.mk4 20 20 20 20) = true ↔
        ∀ P : TPoint, (TRect.mk4 20 20 20 20).Contains P = true →
          (TRect.mk4 0 0 10 10).Contains P = true) := by
  intro h
  have hall : ∀ P : TPoint, (TRect.mk4 20 20 20 20).Contains P = true →
      (TRect.mk4 0 0 10 10).Contains P = true := by
    intro P hP
    simp only [TRect.Contains, TRect.mk4, Bool.and_eq_true, decide_eq_true_eq] at hP
    omega
  exact absurd (h.mpr hall) (by decide)

/--
C4, amended: for all rectangles A and B, `A.Contains(B)` implies that every
point contained in B is contained in A; conversely, when B is a non-empty
rectangle with int32 edges and every int32 point contained in B is contained
in A, then `A.Contains(B)` is true.
-/
theorem ContainsRect_points (A B : TRect) :
    (A.ContainsRect B = true →
      ∀ P : TPoint, B.Contains P = true → A.Contains P = true) ∧
    (B.IsEmpty = false → B.InRange →
      (∀ P : TPoint, P.InRange → B.Contains P = true → A.Contains P = true) →
      A.ContainsRect B = true) := by
  constructor
  · intro h P hP
    simp only [TRect.ContainsRect, TRect.Contains, Bool.and_eq_true, decide_eq_true_eq]
      at h hP ⊢
    omega
  · intro hE hR hall
    simp only [TRect.IsEmpty, TRect.Left, TRect.Right, TRect.Top, TRect.Bottom,
      Bool.or_eq_false_iff, decide_eq_false_iff_not] at hE
    simp only [TRect.InRange, TPoint.InRange, InInt32] at hR
    have h1 := hall ⟨B.iTopLeft.iX, B.iTopLeft.iY⟩
      (by simp only [TPoint.InRange, InInt32]; omega)
      (by simp only [TRect.Contains, Bool.and_eq_true, decide_eq_true_eq]; omega)
    have h2 := hall ⟨B.iBottomRight.iX - 1, B.iBottomRight.iY - 1⟩
      (by simp only [TPoint.InRange, InInt32]; omega)
      (by simp only [TRect.Contains, Bool.and_eq_true, decide_eq_true_eq]; omega)
    simp only [TRect.Contains, Bool.and_eq_true, decide_eq_true_eq] at h1 h2
    simp only [TRect.ContainsRect, Bool.and_eq_true, decide_eq_true_eq]
    omega

/--
Witness for C4: A = (0,0,10,10) and the non-empty B = (2,2,5,5) satisfy the
hypotheses of both directions; the point (3,3) of B is in A.
-/
theorem ContainsRect_points_witness :
    (TRect.mk4 0 0 10 10).ContainsRect (TRect.mk4 2 2 5 5) = true ∧
    (TRect.mk4 2 2 5 5).Contains ⟨3, 3⟩ = true ∧
    (TRect.mk4 0 0 10 10).Contains ⟨3, 3⟩ = true ∧
    (TRect.mk4 2 2 5 5).IsEmpty = false ∧ (TRect.mk4 2 2 5 5).InRange ∧
    (TRect.mk4 0 0 10 10).ContainsRect (TRect.mk4 2 2 5 5) = true :=
  ⟨by decide, by decide,
    (ContainsRect_points (TRect.mk4 0 0 10 10) (TRect.mk4 2 2 5 5)).1 (by decide) ⟨3, 3⟩
      (by decide),
    by decide, by decide,
    (ContainsRect_points (TRect.mk4 0 0 10 10) (TRect.mk4 2 2 5 5)).2 (by decide) (by decide)
      (fun P _ hP =>
        (ContainsRect_points (TRect.mk4 0 0 10 10) (TRect.mk4 2 2 5 5)).1 (by decide) P hP)⟩

/-! ## Theorems about `TRectFP` -/

/--
C5: for all rectangles A, B and every point P, the rectangle obtained from A by
`A.Intersection(B)` contains P if and only if both A and B contain P; and
(0,0,10,10) intersected with (5,5,15,15) is (5,5,10,10).
-/
theorem Intersection_Contains_iff :
    (∀ (T : Type) [LinearOrder T] (A B : TRectFP T) (P : TPoint2 T),
      (A.Intersection B).Contains P = true ↔ (A.Contains P = true ∧ B.Contains P = true)) ∧
    (TRectFP.mk4 (0 : ℚ) 0 10 10).Intersection (TRectFP.mk4 5 5 15 15) =
      TRectFP.mk4 5 5 10 10 := by
  constructor
  · intro T _ A B P
    simp only [TRectFP.Intersection, TRectFP.Contains, ite_lt_eq_max, ite_gt_eq_min,
      Bool.and_eq_true, decide_eq_true_eq, ge_iff_le, max_le_iff, lt_min_iff]
    tauto
  · simp only [TRectFP.Intersection, TRectFP.mk4]
    norm_num

/--
C6, as stated, fails: the degenerate rectangle A = (5,5,5,5) is empty, yet
`A.Intersects(B)` is true for B = (0,0,10,10).
-/
theorem empty_Intersects_fails :
    ¬ (((TRectFP.mk4 (5 : ℚ) 5 5 5).IsEmpty = true ∨
          (TRectFP.mk4 (0 : ℚ) 0 10 10).IsEmpty = true) →
        (TRectFP.mk4 (5 : ℚ) 5 5 5).Intersects (TRectFP.mk4 0 0 10 10) = false) := by
  intro h
  have hE : (TRectFP.mk4 (5 : ℚ) 5 5 5).IsEmpty = true := by
    simp [TRectFP.IsEmpty, TRectFP.mk4, TRectFP.Left, TRectFP.Right]
  have hI : (TRectFP.mk4 (5 : ℚ) 5 5 5).Intersects (TRectFP.mk4 0 0 10 10) = true := by
    simp only [TRectFP.Intersects, TRectFP.mk4]
    norm_num
  rw [h (Or.inl hE)] at hI
  exact Bool.false_ne_true hI

/--
C6, amended: an empty rectangle never intersects itself, and two rectangles
that are empty along the same axis (both with left >= right, or both with
top >= bottom) never intersect each other.
-/
theorem empty_Intersects {T : Type} [LinearOrder T] (A B : TRectFP T) :
    (A.IsEmpty = true → A.Intersects A = false) ∧
    ((A.Left ≥ A.Right ∧ B.Left ≥ B.Right) ∨ (A.Top ≥ A.Bottom ∧ B.Top ≥ B.Bottom) →
      A.Intersects B = false) := by
  have key : (A.Left ≥ A.Right ∧ B.Left ≥ B.Right) ∨ (A.Top ≥ A.Bottom ∧ B.Top ≥ B.Bottom) →
      A.Intersects B = false := by
    intro h
    rw [← Bool.not_eq_true]
    intro hI
    simp only [TRectFP.Intersects, Bool.and_eq_true, decide_eq_true_eq, gt_iff_lt] at hI
    simp only [TRectFP.Left, TRectFP.Right, TRectFP.Top, TRectFP.Bottom, ge_iff_le] at h
    obtain ⟨⟨⟨h1, h2⟩, h3⟩, h4⟩ := hI
    rcases h with ⟨hA, hB⟩ | ⟨hA, hB⟩
    · exact absurd (lt_of_lt_of_le (lt_of_lt_of_le h1 hB) (le_of_lt h2)) (not_lt.mpr hA)
    · exact absurd (lt_of_lt_of_le (lt_of_lt_of_le h3 hB) (le_of_lt h4)) (not_lt.mpr hA)
  refine ⟨?_, key⟩
  intro hE
  rw [← Bool.not_eq_true]
  intro hI
  simp only [TRectFP.Intersects, Bool.and_eq_true, decide_eq_true_eq, gt_iff_lt] at hI
  simp only [TRectFP.IsEmpty, TRectFP.Left, TRectFP.Right, TRectFP.Top, TRectFP.Bottom,
    Bool.or_eq_true, decide_eq_true_eq, ge_iff_le] at hE
  obtain ⟨⟨⟨h1, _⟩, h3⟩, _⟩ := hI
  rcases hE with hE | hE
  · exact absurd h1 (not_lt.mpr hE)
  · exact absurd h3 (not_lt.mpr hE)

/--
Witness for C6: the empty rectangle (5,5,5,5) does not intersect itself, and
the zero-width rectangles (5,0,5,10) and (3,0,3,10) do not intersect.
-/
theorem empty_Intersects_witness :
    (TRectFP.mk4 (5 : ℚ) 5 5 5).IsEmpty = true ∧
    (TRectFP.mk4 (5 : ℚ) 5 5 5).Intersects (TRectFP.mk4 5 5 5 5) = false ∧
    (((TRectFP.mk4 (5 : ℚ) 0 5 10).Left ≥ (TRectFP.mk4 (5 : ℚ) 0 5 10).Right ∧
        (TRectFP.mk4 (3 : ℚ) 0 3 10).Left ≥ (TRectFP.mk4 (3 : ℚ) 0 3 10).Right) ∨
      ((TRectFP.mk4 (5 : ℚ) 0 5 10).Top ≥ (TRectFP.mk4 (5 : ℚ) 0 5 10).Bottom ∧
        (TRectFP.mk4 (3 : ℚ) 0 3 10).Top ≥ (TRectFP.mk4 (3 : ℚ) 0 3 10).Bottom)) ∧
    (TRectFP.mk4 (5 : ℚ) 0 5 10).Intersects (TRectFP.mk4 3 0 3 10) = false :=
  ⟨by decide,
    (empty_Intersects (TRectFP.mk4 (5 : ℚ) 5 5 5) (TRectFP.mk4 5 5 5 5)).1 (by decide),
    by decide,
    (empty_Intersects (TRectFP.mk4 (5 : ℚ) 0 5 10) (TRectFP.mk4 3 0 3 10)).2 (by decide)⟩

/-- C7: `Intersects` is symmetric: `A.Intersects(B) == B.Intersects(A)` for all A and B. -/
theorem Intersects_symm {T : Type} [LinearOrder T] (A B : TRectFP T) :
    A.Intersects B = B.Intersects A := by
  rw [Bool.eq_iff_iff]
  simp only [TRectFP.Intersects, Bool.and_eq_true, decide_eq_true_eq, gt_iff_lt]
  tauto

/--
C8: for non-empty rectangles A and B, `A.Intersects(B)` is true if and only if
the rectangle produced by `A.Intersection(B)` is not empty.
-/
theorem Intersects_iff_Intersection_nonempty {T : Type} [LinearOrder T] (A B : TRectFP T)
    (hA : A.IsEmpty = false) (hB : B.IsEmpty = false) :
    A.Intersects B = true ↔ (A.Intersection B).IsEmpty = false := by
  simp only [TRectFP.IsEmpty, TRectFP.Left, TRectFP.Right, TRectFP.Top, TRectFP.Bottom,
    Bool.or_eq_false_iff, decide_eq_false_iff_not, ge_iff_le, not_le] at hA hB
  simp only [TRectFP.Intersects, TRectFP.Intersection, TRectFP.IsEmpty, TRectFP.Left,
    TRectFP.Right, TRectFP.Top, TRectFP.Bottom, ite_lt_eq_max, ite_gt_eq_min,
    Bool.and_eq_true, Bool.or_eq_false_iff, decide_eq_true_eq, decide_eq_false_iff_not,
    ge_iff_le, gt_iff_lt, not_le, max_lt_iff, lt_min_iff]
  tauto

/--
Witness for C8: (0,0,10,10) and (5,5,15,15) are non-empty and intersect, and
their intersection is non-empty.
-/
theorem Intersects_iff_Intersection_nonempty_witness :
    (TRectFP.mk4 (0 : ℚ) 0 10 10).IsEmpty = false ∧
    (TRectFP.mk4 (5 : ℚ) 5 15 15).IsEmpty = false ∧
    ((TRectFP.mk4 (0 : ℚ) 0 10 10).Intersects (TRectFP.mk4 5 5 15 15) = true ↔
      ((TRectFP.mk4 (0 : ℚ) 0 10 10).Intersection (TRectFP.mk4 5 5 15 15)).IsEmpty = false) :=
  ⟨by decide, by decide,
    Intersects_iff_Intersection_nonempty (TRectFP.mk4 (0 : ℚ) 0 10 10)
      (TRectFP.mk4 5 5 15 15) (by decide) (by decide)⟩

/--
C9: for non-empty rectangles A and B, the result C of `A.Combine(B)` contains
both A and B, and every rectangle D that contains both A and B also contains C.
-/
theorem Combine_least_enclosing {T : Type} [LinearOrder T] (A B : TRectFP T)
    (hA : A.IsEmpty = false) (hB : B.IsEmpty = false) :
    (A.Combine B).ContainsRect A = true ∧ (A.Combine B).ContainsRect B = true ∧
    ∀ D : TRectFP T, D.ContainsRect A = true → D.ContainsRect B = true →
      D.ContainsRect (A.Combine B) = true := by
  have hC : A.Combine B =
      ⟨⟨min A.iTopLeft.iX B.iTopLeft.iX, min A.iTopLeft.iY B.iTopLeft.iY⟩,
        ⟨max A.iBottomRight.iX B.iBottomRight.iX, max A.iBottomRight.iY B.iBottomRight.iY⟩⟩ := by
    simp only [TRectFP.Combine, hA, hB, Bool.not_false, if_true, Bool.false_eq_true, if_false,
      ← gt_iff_lt, ite_gt_eq_min, gt_iff_lt, ite_lt_eq_max]
  rw [hC]
  simp only [TRectFP.ContainsRect, Bool.and_eq_true, decide_eq_true_eq, ge_iff_le,
    min_le_iff, le_max_iff, le_min_iff, max_le_iff, le_refl, true_or, or_true, and_self,
    true_and]
  intro D hDA hDB
  tauto

/--
Witness for C9: (0,0,10,10) and (5,5,15,15) are non-empty; their combination
(0,0,15,15) contains both.
-/
theorem Combine_least_enclosing_witness :
    (TRectFP.mk4 (0 : ℚ) 0 10 10).IsEmpty = false ∧
    (TRectFP.mk4 (5 : ℚ) 5 15 15).IsEmpty = false ∧
    ((TRectFP.mk4 (0 : ℚ) 0 10 10).Combine (TRectFP.mk4 5 5 15 15)).ContainsRect
      (TRectFP.mk4 0 0 10 10) = true ∧
    ((TRectFP.mk4 (0 : ℚ) 0 10 10).Combine (TRectFP.mk4 5 5 15 15)).ContainsRect
      (TRectFP.mk4 5 5 15 15) = true :=
  ⟨by decide, by decide,
    (Combine_least_enclosing (TRectFP.mk4 (0 : ℚ) 0 10 10) (TRectFP.mk4 5 5 15 15)
      (by decide) (by decide)).1,
    (Combine_least_enclosing (TRectFP.mk4 (0 : ℚ) 0 10 10) (TRectFP.mk4 5 5 15 15)
      (by decide) (by decide)).2.1⟩

/--
C10: the result of `A.Combine(B)` is A unchanged when B is empty, is B when B
is non-empty and A is empty, and otherwise is the rectangle (min of lefts,
min of tops, max of rights, max of bottoms).
-/
theorem Combine_cases {T : Type} [LinearOrder T] (A B : TRectFP T) :
    A.Combine B =
      if B.IsEmpty = true then A
      else if A.IsEmpty = true then B
      else TRectFP.mk4 (min A.Left B.Left) (min A.Top B.Top)
        (max A.Right B.Right) (max A.Bottom B.Bottom) := by
  by_cases hB : B.IsEmpty = true
  · simp only [TRectFP.Combine, hB, Bool.not_true, Bool.false_eq_true, if_false, if_true]
  · by_cases hA : A.IsEmpty = true
    · simp only [TRectFP.Combine, hB, hA, Bool.not_eq_true_eq_eq_false, Bool.not_eq_true,
        if_true, if_false]
      simp
    · simp only [Bool.not_eq_true] at hA hB
      simp only [TRectFP.Combine, hA, hB, Bool.not_false, if_true, Bool.false_eq_true,
        if_false, ← gt_iff_lt, ite_gt_eq_min, gt_iff_lt, ite_lt_eq_max, TRectFP.mk4,
        TRectFP.Left, TRectFP.Top, TRectFP.Right, TRectFP.Bottom]

/--
C11: `Combine` is a no-op on what is already contained: `A.Combine(A)` leaves A
unchanged, `A.Combine(B)` leaves A unchanged for every rectangle B with
`A.Contains(B)`, and `A.Combine(P)` leaves A unchanged for every point P with
`A.Contains(P)`.
-/
theorem Combine_contained_noop {T : Type} [LinearOrder T] (A : TRectFP T) :
    A.Combine A = A ∧
    (∀ B : TRectFP T, A.ContainsRect B = true → A.Combine B = A) ∧
    (∀ P : TPoint2 T, A.Contains P = true → A.CombinePoint P = A) := by
  obtain ⟨⟨al, at_⟩, ⟨ar, ab⟩⟩ := A
  refine ⟨?_, ?_, ?_⟩
  · simp only [TRectFP.Combine, lt_self_iff_false, gt_iff_lt, if_false]
    split_ifs <;> rfl
  · rintro ⟨⟨bl, bt⟩, ⟨br, bb⟩⟩ h
    simp only [TRectFP.ContainsRect, Bool.and_eq_true, decide_eq_true_eq, ge_iff_le] at h
    obtain ⟨⟨⟨h1, h2⟩, h3⟩, h4⟩ := h
    simp only [TRectFP.Combine, TRectFP.IsEmpty, TRectFP.Left, TRectFP.Right, TRectFP.Top,
      TRectFP.Bottom, gt_iff_lt, not_lt.mpr h1, not_lt.mpr h2, not_lt.mpr h3, not_lt.mpr h4,
      if_false]
    split_ifs with hB hA
    · exfalso
      simp only [Bool.not_eq_true', Bool.or_eq_false_iff, decide_eq_false_iff_not, ge_iff_le,
        not_le] at hB
      simp only [Bool.or_eq_true, decide_eq_true_eq, ge_iff_le] at hA
      rcases hA with hA | hA
      · exact absurd (lt_of_le_of_lt h1 (lt_of_lt_of_le hB.1 h3)) (not_lt.mpr hA)
      · exact absurd (lt_of_le_of_lt h2 (lt_of_lt_of_le hB.2 h4)) (not_lt.mpr hA)
    · rfl
    · rfl
  · rintro ⟨px, py⟩ h
    simp only [TRectFP.Contains, Bool.and_eq_true, decide_eq_true_eq, ge_iff_le] at h
    obtain ⟨⟨⟨h1, h2⟩, h3⟩, h4⟩ := h
    simp only [TRectFP.CombinePoint, gt_iff_lt, not_lt.mpr h1, not_lt.mpr h2,
      not_lt.mpr (le_of_lt h3), not_lt.mpr (le_of_lt h4), if_false]

/--
Witness for C11: (0,0,10,10) contains the rectangle (2,2,5,5) and the point
(3,3); combining with either leaves it unchanged.
-/
theorem Combine_contained_noop_witness :
    (TRectFP.mk4 (0 : ℚ) 0 10 10).ContainsRect (TRectFP.mk4 2 2 5 5) = true ∧
    (TRectFP.mk4 (0 : ℚ) 0 10 10).Combine (TRectFP.mk4 2 2 5 5) = TRectFP.mk4 0 0 10 10 ∧
    (TRectFP.mk4 (0 : ℚ) 0 10 10).Contains ⟨3, 3⟩ = true ∧
    (TRectFP.mk4 (0 : ℚ) 0 10 10).CombinePoint ⟨3, 3⟩ = TRectFP.mk4 0 0 10 10 :=
  ⟨by decide,
    (Combine_contained_noop (TRectFP.mk4 (0 : ℚ) 0 10 10)).2.1 (TRectFP.mk4 2 2 5 5) (by decide),
    by decide,
    (Combine_contained_noop (TRectFP.mk4 (0 : ℚ) 0 10 10)).2.2 ⟨3, 3⟩ (by decide)⟩

/--
C12, as stated, fails: combining (0,0,10,10) with the point (15,5) gives
(0,0,15,10), whose right edge is the point's x coordinate, so the half-open
`Contains` test rejects the point.
-/
theorem CombinePoint_Contains_fails :
    (TRectFP.mk4 (0 : ℚ) 0 10 10).CombinePoint ⟨15, 5⟩ = TRectFP.mk4 0 0 15 10 ∧
    ¬ (((TRectFP.mk4 (0 : ℚ) 0 10 10).CombinePoint ⟨15, 5⟩).Contains ⟨15, 5⟩ = true) := by
  decide

/--
C12, amended: for every rectangle R and point P, the rectangle obtained by
`R.Combine(P)` has P within its closed bounds (left <= P.x <= right and
top <= P.y <= bottom), and it contains P in the half-open sense of `Contains`
if and only if P.x < R.Right() and P.y < R.Bottom().
-/
theorem CombinePoint_bounds {T : Type} [LinearOrder T] (R : TRectFP T) (P : TPoint2 T) :
    ((R.CombinePoint P).Left ≤ P.iX ∧ P.iX ≤ (R.CombinePoint P).Right ∧
      (R.CombinePoint P).Top ≤ P.iY ∧ P.iY ≤ (R.CombinePoint P).Bottom) ∧
    ((R.CombinePoint P).Contains P = true ↔ (P.iX < R.Right ∧ P.iY < R.Bottom)) := by
  simp only [TRectFP.CombinePoint, TRectFP.Contains, TRectFP.Left, TRectFP.Right, TRectFP.Top,
    TRectFP.Bottom, ← gt_iff_lt, ite_gt_eq_min, gt_iff_lt, ite_lt_eq_max, Bool.and_eq_true,
    decide_eq_true_eq, ge_iff_le, min_le_iff, le_max_iff, lt_max_iff, le_refl, or_true,
    lt_self_iff_false, or_false, true_and, and_self]

/--
C13: for every rectangle R and point P, `R.Region(P) == 0` if and only if P is
strictly interior: left < P.x < right and top < P.y < bottom.
-/
theorem Region_eq_zero_iff_interior (R : TRect) (P : TPoint) :
    R.Region P = 0 ↔
      (R.Left < P.iX ∧ P.iX < R.Right ∧ R.Top < P.iY ∧ P.iY < R.Bottom) := by
  simp only [TRect.Region, TRect.Left, TRect.Right, TRect.Top, TRect.Bottom, TRect.KLeftRegion,
    TRect.KRightRegion, TRect.KTopRegion, TRect.KBottomRegion]
  split_ifs <;> simp <;> omega

/-! ## Theorems about points and vectors -/

/--
C14: the unit vector of the zero vector is the fixed default, (1,0) for
`TPoint2` and (1,0,0) for `TPoint3`, for every square-root function with
`sqrt 0 = 0`. The division of `T` is an arbitrary operation here, so the result
does not depend on any quotient by the zero length.
-/
theorem UnitVector_zero {T : Type} [LinearOrderedRing T] [Div T] (sqrt : T → T)
    (h : sqrt 0 = 0) :
    (⟨0, 0⟩ : TPoint2 T).UnitVector sqrt = ⟨1, 0⟩ ∧
    (⟨0, 0, 0⟩ : TPoint3 T).UnitVector sqrt = ⟨1, 0, 0⟩ := by
  constructor
  · simp only [TPoint2.UnitVector, TPoint2.VectorLength, mul_zero, add_zero, h, gt_iff_lt,
      lt_self_iff_false, if_false]
  · simp only [TPoint3.UnitVector, TPoint3.VectorLength, mul_zero, add_zero, h, gt_iff_lt,
      lt_self_iff_false, if_false]

/-- Witness for C14: over the reals, with the real square root. -/
theorem UnitVector_zero_witness :
    Real.sqrt 0 = 0 ∧
    (⟨0, 0⟩ : TPoint2 ℝ).UnitVector Real.sqrt = ⟨1, 0⟩ ∧
    (⟨0, 0, 0⟩ : TPoint3 ℝ).UnitVector Real.sqrt = ⟨1, 0, 0⟩ :=
  ⟨Real.sqrt_zero, UnitVector_zero Real.sqrt Real.sqrt_zero⟩

/--
C15: for all vectors v and points p, `v.LeftOfVector(p)` holds iff
v.x*p.y - v.y*p.x > 0 and `v.RightOfVector(p)` holds iff it is < 0; the two are
never both true, and both are false exactly when the cross product is zero.
The cross product of (1,0) and (0,1) is positive and (0,1) is left of (1,0).
-/
theorem LeftOfVector_RightOfVector_iff :
    (∀ (T : Type) [LinearOrderedRing T] (v p : TPoint2 T),
      (v.LeftOfVector p = true ↔ v.iX * p.iY - v.iY * p.iX > 0) ∧
      (v.RightOfVector p = true ↔ v.iX * p.iY - v.iY * p.iX < 0) ∧
      ¬ (v.LeftOfVector p = true ∧ v.RightOfVector p = true) ∧
      ((v.LeftOfVector p = false ∧ v.RightOfVector p = false) ↔
        v.iX * p.iY - v.iY * p.iX = 0)) ∧
    (⟨1, 0⟩ : TPoint2 ℚ).CrossProduct ⟨0, 1⟩ > 0 ∧
    (⟨1, 0⟩ : TPoint2 ℚ).LeftOfVector ⟨0, 1⟩ = true := by
  refine ⟨?_, ?_, ?_⟩
  · intro T _ v p
    simp only [TPoint2.LeftOfVector, TPoint2.RightOfVector, TPoint2.CrossProduct,
      decide_eq_true_eq, decide_eq_false_iff_not, gt_iff_lt, not_lt]
    refine ⟨trivial, trivial, ?_, ?_⟩
    · rintro ⟨h1, h2⟩
      exact lt_asymm h1 h2
    · constructor
      · rintro ⟨h1, h2⟩
        exact le_antisymm h1 h2
      · intro h
        rw [h]
        exact ⟨le_refl _, le_refl _⟩
  · simp only [TPoint2.CrossProduct]
    norm_num
  · simp only [TPoint2.LeftOfVector, TPoint2.CrossProduct]
    norm_num

/-! ### Point comparison as a lexicographic order -/

theorem strict_total_order_facts {L : Type} [LinearOrder L] (x y z : L) :
    ¬ x < x ∧ (x < y → y < z → x < z) ∧ ExactlyOne (x < y) (x = y) (y < x) := by
  refine ⟨lt_irrefl x, fun h1 h2 => lt_trans h1 h2, ?_⟩
  unfold ExactlyOne
  rcases lt_trichotomy x y with h | h | h
  · exact Or.inl ⟨h, ne_of_lt h, lt_asymm h⟩
  · exact Or.inr (Or.inl ⟨by rw [h]; exact lt_irrefl y, h, by rw [h]; exact lt_irrefl y⟩)
  · exact Or.inr (Or.inr ⟨lt_asymm h, ne_of_gt h, h⟩)

theorem TPoint_opLt_iff (a b : TPoint) :
    a.opLt b = true ↔ (a.iX < b.iX ∨ (a.iX = b.iX ∧ a.iY < b.iY)) := by
  simp only [TPoint.opLt, Bool.or_eq_true, Bool.and_eq_true, decide_eq_true_eq]

theorem TPoint_opGt_eq (a b : TPoint) : a.opGt b = b.opLt a := by
  rw [Bool.eq_iff_iff]
  simp only [TPoint.opGt, TPoint.opLt, Bool.or_eq_true, Bool.and_eq_true, decide_eq_true_eq,
    gt_iff_lt]
  constructor
  · rintro (h | ⟨h1, h2⟩)
    · exact Or.inl h
    · exact Or.inr ⟨h1.symm, h2⟩
  · rintro (h | ⟨h1, h2⟩)
    · exact Or.inl h
    · exact Or.inr ⟨h1.symm, h2⟩

theorem TPoint_opEq_iff (a b : TPoint) :
    a.opEq b = true ↔ (a.iX = b.iX ∧ a.iY = b.iY) := by
  simp only [TPoint.opEq, Bool.and_eq_true, decide_eq_true_eq]

theorem TPoint2_opLt_iff {T : Type} [LinearOrder T] (a b : TPoint2 T) :
    a.opLt b = true ↔ (a.iX < b.iX ∨ (a.iX = b.iX ∧ a.iY < b.iY)) := by
  unfold TPoint2.opLt
  rcases lt_trichotomy a.iX b.iX with h | h | h
  · simp [h]
  · simp [h]
  · simp [h, lt_asymm h, ne_of_gt h]

theorem TPoint2_opGt_eq {T : Type} [LinearOrder T] (a b : TPoint2 T) :
    a.opGt b = b.opLt a := by
  simp only [TPoint2.opGt, TPoint2.opLt, gt_iff_lt]

theorem TPoint2_opEq_iff {T : Type} [LinearOrder T] (a b : TPoint2 T) :
    a.opEq b = true ↔ (a.iX = b.iX ∧ a.iY = b.iY) := by
  simp only [TPoint2.opEq, Bool.and_eq_true, decide_eq_true_eq]

theorem TPoint3_opLt_iff {T : Type} [LinearOrder T] (a b : TPoint3 T) :
    a.opLt b = true ↔
      (a.iX < b.iX ∨ (a.iX = b.iX ∧ a.iY < b.iY) ∨
        (a.iX = b.iX ∧ a.iY = b.iY ∧ a.iZ < b.iZ)) := by
  unfold TPoint3.opLt
  rcases lt_trichotomy a.iX b.iX with h | h | h
  · simp [h]
  · rcases lt_trichotomy a.iY b.iY with k | k | k
    · simp [h, k]
    · simp [h, k]
    · simp [h, k, lt_asymm k, ne_of_gt k]
  · simp [h, lt_asymm h, ne_of_gt h]

theorem TPoint3_opEq_iff {T : Type} [LinearOrder T] (a b : TPoint3 T) :
    a.opEq b = true ↔ (a.iX = b.iX ∧ a.iY = b.iY ∧ a.iZ = b.iZ) := by
  simp only [TPoint3.opEq, Bool.and_eq_true, decide_eq_true_eq, and_assoc]

theorem lex2_iff {L : Type} [LinearOrder L] (a1 a2 b1 b2 : L) :
    (a1 < b1 ∨ (a1 = b1 ∧ a2 < b2)) ↔ toLex (a1, a2) < toLex (b1, b2) :=
  (Prod.Lex.lt_iff (a1, a2) (b1, b2)).symm

theorem lex3_iff {L : Type} [LinearOrder L] (a1 a2 a3 b1 b2 b3 : L) :
    (a1 < b1 ∨ (a1 = b1 ∧ a2 < b2) ∨ (a1 = b1 ∧ a2 = b2 ∧ a3 < b3)) ↔
      toLex (a1, toLex (a2, a3)) < toLex (b1, toLex (b2, b3)) := by
  rw [Prod.Lex.lt_iff, Prod.Lex.lt_iff]
  simp only [EmbeddingLike.apply_eq_iff_eq]
  tauto

theorem order_facts_of_key {P L : Type} [LinearOrder L] (lt eq : P → P → Bool) (key : P → L)
    (hlt : ∀ a b, lt a b = true ↔ key a < key b)
    (heq : ∀ a b, eq a b = true ↔ key a = key b) (a b c : P) :
    lt a a = false ∧ (lt a b = true → lt b c = true → lt a c = true) ∧
    ExactlyOne (lt a b = true) (eq a b = true) (lt b a = true) := by
  obtain ⟨h1, -, -⟩ := strict_total_order_facts (key a) (key a) (key a)
  obtain ⟨-, h2, h3⟩ := strict_total_order_facts (key a) (key b) (key c)
  refine ⟨?_, ?_, ?_⟩
  · rw [← Bool.not_eq_true, hlt]
    exact h1
  · rw [hlt, hlt, hlt]
    exact h2
  · rw [hlt, hlt, heq]
    exact h3

/--
C16: point comparison is a lexicographic strict total order. For `TPoint`, and
for `TPoint2` and `TPoint3` over a linearly ordered coordinate type,
`operator<` is irreflexive and transitive, exactly one of a < b, a == b, b < a
holds, and a < b compares x first, then y (then z); for `TPoint` and `TPoint2`,
a > b holds iff b < a.
-/
theorem point_order_lexicographic :
    (∀ a b c : TPoint,
      a.opLt a = false ∧
      (a.opLt b = true → b.opLt c = true → a.opLt c = true) ∧
      ExactlyOne (a.opLt b = true) (a.opEq b = true) (b.opLt a = true) ∧
      (a.opLt b = true ↔ (a.iX < b.iX ∨ (a.iX = b.iX ∧ a.iY < b.iY))) ∧
      a.opGt b = b.opLt a) ∧
    (∀ (T : Type) [LinearOrder T] (a b c : TPoint2 T),
      a.opLt a = false ∧
      (a.opLt b = true → b.opLt c = true → a.opLt c = true) ∧
      ExactlyOne (a.opLt b = true) (a.opEq b = true) (b.opLt a = true) ∧
      (a.opLt b = true ↔ (a.iX < b.iX ∨ (a.iX = b.iX ∧ a.iY < b.iY))) ∧
      a.opGt b = b.opLt a) ∧
    (∀ (T : Type) [LinearOrder T] (a b c : TPoint3 T),
      a.opLt a = false ∧
      (a.opLt b = true → b.opLt c = true → a.opLt c = true) ∧
      ExactlyOne (a.opLt b = true) (a.opEq b = true) (b.opLt a = true) ∧
      (a.opLt b = true ↔
        (a.iX < b.iX ∨ (a.iX = b.iX ∧ a.iY < b.iY) ∨
          (a.iX = b.iX ∧ a.iY = b.iY ∧ a.iZ < b.iZ)))) := by
  refine ⟨?_, ?_, ?_⟩
  · intro a b c
    obtain ⟨h1, h2, h3⟩ := order_facts_of_key TPoint.opLt TPoint.opEq
      (fun p => toLex (p.iX, p.iY))
      (fun a b => by rw [TPoint_opLt_iff, lex2_iff])
      (fun a b => by rw [TPoint_opEq_iff]; simp) a b c
    exact ⟨h1, h2, h3, TPoint_opLt_iff a b, TPoint_opGt_eq a b⟩
  · intro T _ a b c
    obtain ⟨h1, h2, h3⟩ := order_facts_of_key TPoint2.opLt TPoint2.opEq
      (fun p => toLex (p.iX, p.iY))
      (fun a b => by rw [TPoint2_opLt_iff, lex2_iff])
      (fun a b => by rw [TPoint2_opEq_iff]; simp) a b c
    exact ⟨h1, h2, h3, TPoint2_opLt_iff a b, TPoint2_opGt_eq a b⟩
  · intro T _ a b c
    obtain ⟨h1, h2, h3⟩ := order_facts_of_key TPoint3.opLt TPoint3.opEq
      (fun p => toLex (p.iX, toLex (p.iY, p.iZ)))
      (fun a b => by rw [TPoint3_opLt_iff, lex3_iff])
      (fun a b => by rw [TPoint3_opEq_iff]; simp) a b c
    exact ⟨h1, h2, h3, TPoint3_opLt_iff a b⟩

/--
Witness for C16: (0,0) < (0,1) < (1,0) for each of the three point types, so
(0,0) < (1,0) by transitivity.
-/
theorem point_order_lexicographic_witness :
    (TPoint.opLt ⟨0, 0⟩ ⟨0, 1⟩ = true ∧ TPoint.opLt ⟨0, 1⟩ ⟨1, 0⟩ = true ∧
      TPoint.opLt ⟨0, 0⟩ ⟨1, 0⟩ = true) ∧
    (TPoint2.opLt (⟨0, 0⟩ : TPoint2 ℚ) ⟨0, 1⟩ = true ∧
      TPoint2.opLt (⟨0, 1⟩ : TPoint2 ℚ) ⟨1, 0⟩ = true ∧
      TPoint2.opLt (⟨0, 0⟩ : TPoint2 ℚ) ⟨1, 0⟩ = true) ∧
    (TPoint3.opLt (⟨0, 0, 0⟩ : TPoint3 ℚ) ⟨0, 0, 1⟩ = true ∧
      TPoint3.opLt (⟨0, 0, 1⟩ : TPoint3 ℚ) ⟨0, 1, 0⟩ = true ∧
      TPoint3.opLt (⟨0, 0, 0⟩ : TPoint3 ℚ) ⟨0, 1, 0⟩ = true) :=
  ⟨⟨by decide, by decide,
      (point_order_lexicographic.1 ⟨0, 0⟩ ⟨0, 1⟩ ⟨1, 0⟩).2.1 (by decide) (by decide)⟩,
    ⟨by decide, by decide,
      (point_order_lexicographic.2.1 ℚ ⟨0, 0⟩ ⟨0, 1⟩ ⟨1, 0⟩).2.1 (by decide) (by decide)⟩,
    ⟨by decide, by decide,
      (point_order_lexicographic.2.2 ℚ ⟨0, 0, 0⟩ ⟨0, 0, 1⟩ ⟨0, 1, 0⟩).2.1 (by decide)
        (by decide)⟩⟩

/-! ## Theorems about the raster sampler -/

theorem truncToInt_of_floor_nonneg {T : Type} [LinearOrderedField T] [FloorRing T] (x : T)
    (h : 0 ≤ ⌊x⌋) : truncToInt x = ⌊x⌋ := by
  have hx : 0 ≤ x := Int.floor_nonneg.mp h
  simp only [truncToInt, hx, if_true]

theorem one_sub_fract_lt_one {T : Type} [LinearOrderedField T] [FloorRing T] (x : T)
    (h : Int.fract x ≠ 0) : 1 - (x - (⌊x⌋ : T)) < 1 := by
  have h0 : 0 ≤ Int.fract x := Int.fract_nonneg x
  have h1 : 0 < x - (⌊x⌋ : T) := lt_of_le_of_ne h0 (Ne.symm h)
  linarith

/--
C17: for a grid with stride equal to width whose four neighbourhood samples
v00, v10, v01, v11 all differ from the unknown value, and a position (x,y)
with 0 <= floor(x) < width-1, 0 <= floor(y) < height-1, non-zero fractional
parts fx, fy and a blended bottom row different from the unknown value,
`InterpolatedValue` returns
(1-fy)*((1-fx)*v00 + fx*v10) + fy*((1-fx)*v01 + fx*v11).
-/
theorem InterpolatedValue_bilinear {T : Type} [LinearOrderedField T] [FloorRing T]
    (UnknownValue : Int) (aDataStart : Int → Int)
    (aWidth aHeight aStride aChannels aChannel : Int) (aX aY : T)
    (hS : aStride = aWidth)
    (hx0 : 0 ≤ ⌊aX⌋) (hx1 : ⌊aX⌋ < aWidth - 1)
    (hy0 : 0 ≤ ⌊aY⌋) (hy1 : ⌊aY⌋ < aHeight - 1)
    (hfx : Int.fract aX ≠ 0) (hfy : Int.fract aY ≠ 0)
    (_h00 : aDataStart (sampleIndex aWidth aChannels ⌊aX⌋ ⌊aY⌋ aChannel) ≠ UnknownValue)
    (h10 : aDataStart (sampleIndex aWidth aChannels (⌊aX⌋ + 1) ⌊aY⌋ aChannel) ≠ UnknownValue)
    (_h01 : aDataStart (sampleIndex aWidth aChannels ⌊aX⌋ (⌊aY⌋ + 1) aChannel) ≠ UnknownValue)
    (h11 : aDataStart (sampleIndex aWidth aChannels (⌊aX⌋ + 1) (⌊aY⌋ + 1) aChannel)
      ≠ UnknownValue)
    (hB : (1 - Int.fract aX) *
          (aDataStart (sampleIndex aWidth aChannels ⌊aX⌋ (⌊aY⌋ + 1) aChannel) : T) +
        Int.fract aX *
          (aDataStart (sampleIndex aWidth aChannels (⌊aX⌋ + 1) (⌊aY⌋ + 1) aChannel) : T)
        ≠ (UnknownValue : T)) :
    InterpolatedValue UnknownValue aDataStart aWidth aHeight aStride aChannels aX aY aChannel =
      (1 - Int.fract aY) *
          ((1 - Int.fract aX) *
              (aDataStart (sampleIndex aWidth aChannels ⌊aX⌋ ⌊aY⌋ aChannel) : T) +
            Int.fract aX *
              (aDataStart (sampleIndex aWidth aChannels (⌊aX⌋ + 1) ⌊aY⌋ aChannel) : T)) +
        Int.fract aY *
          ((1 - Int.fract aX) *
              (aDataStart (sampleIndex aWidth aChannels ⌊aX⌋ (⌊aY⌋ + 1) aChannel) : T) +
            Int.fract aX *
              (aDataStart (sampleIndex aWidth aChannels (⌊aX⌋ + 1) (⌊aY⌋ + 1) aChannel) : T)) := by
  subst hS
  have htx := truncToInt_of_floor_nonneg aX hx0
  have hty := truncToInt_of_floor_nonneg aY hy0
  have hxc : ¬ (⌊aX⌋ = aStride - 1) := ne_of_lt hx1
  have hyc : ¬ (⌊aY⌋ = aHeight - 1) := ne_of_lt hy1
  have hxf := one_sub_fract_lt_one aX hfx
  have hyf := one_sub_fract_lt_one aY hfy
  have e00 : ⌊aY⌋ * aStride * aChannels + ⌊aX⌋ * aChannels + aChannel =
      sampleIndex aStride aChannels ⌊aX⌋ ⌊aY⌋ aChannel := by
    unfold sampleIndex; ring
  have e10 : sampleIndex aStride aChannels ⌊aX⌋ ⌊aY⌋ aChannel + aChannels =
      sampleIndex aStride aChannels (⌊aX⌋ + 1) ⌊aY⌋ aChannel := by
    unfold sampleIndex; ring
  have e01 : sampleIndex aStride aChannels ⌊aX⌋ ⌊aY⌋ aChannel + aStride * aChannels =
      sampleIndex aStride aChannels ⌊aX⌋ (⌊aY⌋ + 1) aChannel := by
    unfold sampleIndex; ring
  have e11 : sampleIndex aStride aChannels ⌊aX⌋ (⌊aY⌋ + 1) aChannel + aChannels =
      sampleIndex aStride aChannels (⌊aX⌋ + 1) (⌊aY⌋ + 1) aChannel := by
    unfold sampleIndex; ring
  have c10 : (aDataStart (sampleIndex aStride aChannels (⌊aX⌋ + 1) ⌊aY⌋ aChannel) : T) ≠
      (UnknownValue : T) := fun h => h10 (Int.cast_injective h)
  have c11 : (aDataStart (sampleIndex aStride aChannels (⌊aX⌋ + 1) (⌊aY⌋ + 1) aChannel) : T) ≠
      (UnknownValue : T) := fun h => h11 (Int.cast_injective h)
  have hB2 : (aDataStart (sampleIndex aStride aChannels ⌊aX⌋ (⌊aY⌋ + 1) aChannel) : T) *
        (1 - (aX - (⌊aX⌋ : T))) +
      (aDataStart (sampleIndex aStride aChannels (⌊aX⌋ + 1) (⌊aY⌋ + 1) aChannel) : T) *
        (1 - (1 - (aX - (⌊aX⌋ : T)))) ≠ (UnknownValue : T) := by
    intro h
    apply hB
    rw [← h]
    unfold Int.fract
    ring
  simp only [InterpolatedValue, htx, hty, hxc, hyc, if_false, hxf, hyf, if_true, e00, e10, e01,
    e11, ne_eq, c10, c11, hB2, not_false_eq_true]
  unfold Int.fract
  ring

theorem floor_one_half : ⌊(1 / 2 : ℚ)⌋ = 0 := by
  rw [Int.floor_eq_iff]
  norm_num

theorem fract_one_half : Int.fract (1 / 2 : ℚ) = 1 / 2 := by
  unfold Int.fract
  rw [floor_one_half]
  norm_num

/--
Witness for C17: the grid `[[0,10],[20,30]]` (width, height and stride 2, one
channel, unknown value INT_MIN) satisfies the hypotheses at (1/2,1/2), and the
interpolated value there is 15.
-/
theorem InterpolatedValue_bilinear_witness :
    ⌊(1 / 2 : ℚ)⌋ = 0 ∧ Int.fract (1 / 2 : ℚ) = 1 / 2 ∧
    InterpolatedValue (-2147483648) exampleGrid 2 2 2 1 (1 / 2 : ℚ) (1 / 2) 0 = 15 := by
  refine ⟨floor_one_half, fract_one_half, ?_⟩
  have h := InterpolatedValue_bilinear (-2147483648) exampleGrid 2 2 2 1 0 (1 / 2 : ℚ) (1 / 2)
    rfl (by rw [floor_one_half]) (by rw [floor_one_half]; decide)
    (by rw [floor_one_half]) (by rw [floor_one_half]; decide)
    (by rw [fract_one_half]; norm_num) (by rw [fract_one_half]; norm_num)
    (by rw [floor_one_half]; decide) (by rw [floor_one_half]; decide)
    (by rw [floor_one_half]; decide) (by rw [floor_one_half]; decide)
    (by rw [floor_one_half, fract_one_half]; norm_num [sampleIndex, exampleGrid])
  rw [h, floor_one_half, fract_one_half]
  norm_num [sampleIndex, exampleGrid]

/--
C18: with unknown value -32768 and the grid `[[-32768,10],[20,30]]`, whose
top-left sample is unknown, the value interpolated at (1/2,1/2) is -8177: the
unknown sample contributes, and the result is below the least known sample 10.
-/
theorem InterpolatedValue_uses_unknown_top_left :
    exampleGridUnknown 0 = -32768 ∧ exampleGridUnknown 1 = 10 ∧
    exampleGridUnknown 2 = 20 ∧ exampleGridUnknown 3 = 30 ∧
    InterpolatedValue (-32768) exampleGridUnknown 2 2 2 1 (1 / 2 : ℚ) (1 / 2) 0 = -8177 ∧
    ¬ ((10 : ℚ) ≤ InterpolatedValue (-32768) exampleGridUnknown 2 2 2 1 (1 / 2 : ℚ) (1 / 2) 0) := by
  have h : InterpolatedValue (-32768) exampleGridUnknown 2 2 2 1 (1 / 2 : ℚ) (1 / 2) 0
      = -8177 := by
    have ht : truncToInt (1 / 2 : ℚ) = 0 := by
      rw [truncToInt_of_floor_nonneg _ (by rw [floor_one_half]), floor_one_half]
    simp only [InterpolatedValue, ht, floor_one_half]
    norm_num [exampleGridUnknown]
  refine ⟨by decide, by decide, by decide, by decide, h, ?_⟩
  rw [h]
  norm_num

/-! ## Theorems about big-endian samples -/

theorem shiftLeft8_or_eq (b0 b1 : Nat) (h1 : b1 < 256) :
    (b0 <<< 8) ||| b1 = 256 * b0 + b1 := by
  rw [Nat.shiftLeft_eq, Nat.mul_comm]
  exact (Nat.mul_add_lt_is_or (i := 8) h1 b0).symm

/--
C19: for all bytes b0, b1, `ReadBigEndian` returns the two's-complement signed
16-bit value of 256*b0 + b1; and for every int16 value v, `WriteBigEndian`
stores the high byte followed by the low byte of v, and reading those two bytes
returns v.
-/
theorem ReadBigEndian_WriteBigEndian :
    (∀ b0 b1 : Nat, b0 < 256 → b1 < 256 →
      ReadBigEndian b0 b1 =
        if 256 * b0 + b1 < 32768 then ((256 * b0 + b1 : Nat) : Int)
        else ((256 * b0 + b1 : Nat) : Int) - 65536) ∧
    (∀ v : Int, -32768 ≤ v → v ≤ 32767 →
      ReadBigEndian (WriteBigEndian v).1 (WriteBigEndian v).2 = v ∧
      ((WriteBigEndian v).1 : Int) = (v % 65536) / 256 ∧
      ((WriteBigEndian v).2 : Int) = (v % 65536) % 256) := by
  constructor
  · intro b0 b1 h0 h1
    unfold ReadBigEndian toInt16
    rw [shiftLeft8_or_eq b0 b1 h1]
    split_ifs <;> omega
  · intro v hlo hhi
    have hs : v >>> (8 : Nat) = v / 256 := by
      rw [Int.shiftRight_eq_div_pow]
      norm_num
    have hb0 : toUint8 (v >>> (8 : Nat)) < 256 := by
      unfold toUint8
      omega
    have hb1 : toUint8 v < 256 := by
      unfold toUint8
      omega
    refine ⟨?_, ?_, ?_⟩
    · unfold ReadBigEndian WriteBigEndian toInt16
      simp only []
      rw [shiftLeft8_or_eq _ _ hb1]
      unfold toUint8
      rw [hs]
      omega
    · unfold WriteBigEndian toUint8
      simp only []
      rw [hs]
      omega
    · unfold WriteBigEndian toUint8
      simp only []
      omega

/--
Witness for C19: the bytes 0xFF, 0xFE decode to -2, and -2 is written as the
bytes 0xFF, 0xFE.
-/
theorem ReadBigEndian_WriteBigEndian_witness :
    ReadBigEndian 255 254 = -2 ∧ WriteBigEndian (-2) = (255, 254) ∧
    ReadBigEndian (WriteBigEndian (-2)).1 (WriteBigEndian (-2)).2 = -2 :=
  ⟨(ReadBigEndian_WriteBigEndian.1 255 254 (by decide) (by decide)).trans (by decide),
    by decide,
    (ReadBigEndian_WriteBigEndian.2 (-2) (by decide) (by decide)).1⟩

/-! ## Theorems about the geo utilities -/

/--
Exact-arithmetic idealisation only: over the reals, with the real sine and
cosine, `cos_angle` for two equal positions is exactly 1, so the guard
`cos_angle >= 1` returns 0 for an arbitrary arccosine function. This rests on
the identity sin^2 + cos^2 = 1 holding exactly. It is not a statement about
the `double` computation of the source, where the rounded sum can fall just
below 1 (for instance at latitude -50 degrees), the guard is then not taken
and a small positive distance is returned.
-/
theorem GreatCircleDistanceInMeters_self_exact (acos : ℝ → ℝ) (aLong aLat : ℝ) :
    GreatCircleDistanceInMeters Real.sin Real.cos acos aLong aLat aLong aLat = 0 := by
  have h : ∀ a b : ℝ,
      Real.sin a * Real.sin a + Real.cos a * Real.cos a * Real.cos (b - b) = 1 := by
    intro a b
    rw [sub_self, Real.cos_zero, mul_one, ← sq, ← sq]
    exact Real.sin_sq_add_cos_sq a
  simp only [GreatCircleDistanceInMeters, h, ge_iff_le, le_refl, if_true]

theorem degree_in_radians_bounds :
    0 < KDegreesToRadiansDouble ℝ ∧ KDegreesToRadiansDouble ℝ < Real.pi := by
  have hpi := Real.pi_gt_three
  unfold KDegreesToRadiansDouble KPiDouble
  constructor
  · norm_num
  · have h : (3141592654 / 1000000000 / 180 : ℝ) < 3 := by norm_num
    linarith

/--
C21: in exact real arithmetic with the constants of the source,
`GreatCircleDistanceInMeters(0,0,0,1)` equals 6378137 * 3.141592654 / 180, and
this value is within 1% of 111195 metres.
-/
theorem GreatCircleDistanceInMeters_one_degree :
    GreatCircleDistanceInMeters Real.sin Real.cos Real.arccos 0 0 0 1 =
      6378137 * (3141592654 / 1000000000) / 180 ∧
    |GreatCircleDistanceInMeters Real.sin Real.cos Real.arccos 0 0 0 1 - 111195| ≤
      111195 / 100 := by
  obtain ⟨h0, hpi⟩ := degree_in_radians_bounds
  have hcos : ¬ (1 ≤ Real.cos (KDegreesToRadiansDouble ℝ)) := by
    intro h
    have h1 : Real.cos (KDegreesToRadiansDouble ℝ) = 1 :=
      le_antisymm (Real.cos_le_one _) h
    have hpos := Real.pi_pos
    rw [Real.cos_eq_one_iff_of_lt_of_lt (by linarith) (by linarith)] at h1
    exact absurd h1 (ne_of_gt h0)
  have hval : GreatCircleDistanceInMeters Real.sin Real.cos Real.arccos 0 0 0 1 =
      6378137 * (3141592654 / 1000000000) / 180 := by
    simp only [GreatCircleDistanceInMeters, zero_mul, one_mul, Real.sin_zero, Real.cos_zero,
      sub_self, zero_add, mul_one, ge_iff_le, hcos, if_false,
      Real.arccos_cos (le_of_lt h0) (le_of_lt hpi)]
    unfold KDegreesToRadiansDouble KPiDouble KEquatorialRadiusInMetres
    norm_num
  refine ⟨hval, ?_⟩
  rw [hval, abs_le]
  constructor <;> norm_num

/-! ## Further theorems about `TRect` -/

/--
C22: for the segment from (-5,5) to (15,5) and the rectangle (0,0,10,10), the
source's `Region` gives both endpoints the value 1, so the two outcodes share
a set bit and the segment test rejects the segment, whatever the clipping of
outside endpoints does; the clipped segment (0,5) to (10,5) is not returned.
-/
theorem IntersectsSegment_rejects_crossing_segment :
    (TRect.mk4 0 0 10 10).Region ⟨-5, 5⟩ = 1 ∧
    (TRect.mk4 0 0 10 10).Region ⟨15, 5⟩ = 1 ∧
    ∀ aClipOutside : TRect → TPoint → TPoint → Option (TPoint × TPoint),
      (TRect.mk4 0 0 10 10).IntersectsSegment aClipOutside ⟨-5, 5⟩ ⟨15, 5⟩ = none ∧
      (TRect.mk4 0 0 10 10).IntersectsSegment aClipOutside ⟨-5, 5⟩ ⟨15, 5⟩ ≠
        some (⟨0, 5⟩, ⟨10, 5⟩) := by
  refine ⟨by decide, by decide, ?_⟩
  intro aClipOutside
  have h : (TRect.mk4 0 0 10 10).IntersectsSegment aClipOutside ⟨-5, 5⟩ ⟨15, 5⟩ = none := by
    have h1 : (TRect.mk4 0 0 10 10).Region ⟨-5, 5⟩ = 1 := by decide
    have h2 : (TRect.mk4 0 0 10 10).Region ⟨15, 5⟩ = 1 := by decide
    simp only [TRect.IntersectsSegment, h1, h2]
    exact if_pos (by decide)
  rw [h]
  exact ⟨rfl, by simp⟩

theorem ContainsRect_forward (A B : TRect) (h : A.ContainsRect B = true) (P : TPoint)
    (hP : B.Contains P = true) : A.Contains P = true := by
  simp only [TRect.ContainsRect, TRect.Contains, Bool.and_eq_true, decide_eq_true_eq]
    at h hP ⊢
  omega

theorem ContainsRect_backward (A B : TRect) (hE : B.IsEmpty = false) (hR : B.InRange)
    (hall : ∀ P : TPoint, P.InRange → B.Contains P = true → A.Contains P = true) :
    A.ContainsRect B = true := by
  simp only [TRect.IsEmpty, TRect.Left, TRect.Right, TRect.Top, TRect.Bottom,
    Bool.or_eq_false_iff, decide_eq_false_iff_not] at hE
  simp only [TRect.InRange, TPoint.InRange, InInt32] at hR
  have h1 := hall ⟨B.iTopLeft.iX, B.iTopLeft.iY⟩
    (by simp only [TPoint.InRange, InInt32]; omega)
    (by simp only [TRect.Contains, Bool.and_eq_true, decide_eq_true_eq]; omega)
  have h2 := hall ⟨B.iBottomRight.iX - 1, B.iBottomRight.iY - 1⟩
    (by simp only [TPoint.InRange, InInt32]; omega)
    (by simp only [TRect.Contains, Bool.and_eq_true, decide_eq_true_eq]; omega)
  simp only [TRect.Contains, Bool.and_eq_true, decide_eq_true_eq] at h1 h2
  simp only [TRect.ContainsRect, Bool.and_eq_true, decide_eq_true_eq]
  omega

/--
C23: for every rectangle A and every non-empty rectangle B (with int32 edges),
`A.Contains(B)` is true if and only if every int32 point P with `B.Contains(P)`
also satisfies `A.Contains(P)`.
-/
theorem ContainsRect_iff_points_of_nonempty (A B : TRect) (hE : B.IsEmpty = false)
    (hR : B.InRange) :
    A.ContainsRect B = true ↔
      ∀ P : TPoint, P.InRange → B.Contains P = true → A.Contains P = true :=
  ⟨fun h P _ hP => ContainsRect_forward A B h P hP, ContainsRect_backward A B hE hR⟩

/--
Witness for C23: B = (2,2,5,5) is non-empty with int32 edges, and A = (0,0,10,10)
contains it.
-/
theorem ContainsRect_iff_points_of_nonempty_witness :
    (TRect.mk4 2 2 5 5).IsEmpty = false ∧ (TRect.mk4 2 2 5 5).InRange ∧
    ((TRect.mk4 0 0 10 10).ContainsRect (TRect.mk4 2 2 5 5) = true ↔
      ∀ P : TPoint, P.InRange → (TRect.mk4 2 2 5 5).Contains P = true →
        (TRect.mk4 0 0 10 10).Contains P = true) :=
  ⟨by decide, by decide,
    ContainsRect_iff_points_of_nonempty (TRect.mk4 0 0 10 10) (TRect.mk4 2 2 5 5) (by decide)
      (by decide)⟩

/--
C28: for every rectangle R with int32 edges, `R.IsEmpty()` is true if and only
if there is no int32 point P with `R.Contains(P)`.
-/
theorem IsEmpty_iff_no_point (R : TRect) (hR : R.InRange) :
    R.IsEmpty = true ↔ ¬ ∃ P : TPoint, P.InRange ∧ R.Contains P = true := by
  simp only [TRect.InRange, TPoint.InRange, InInt32] at hR
  simp only [TRect.IsEmpty, TRect.Left, TRect.Right, TRect.Top, TRect.Bottom,
    Bool.or_eq_true, decide_eq_true_eq]
  constructor
  · rintro h ⟨P, -, hP⟩
    simp only [TRect.Contains, Bool.and_eq_true, decide_eq_true_eq] at hP
    omega
  · intro h
    by_contra hne
    apply h
    refine ⟨⟨R.iTopLeft.iX, R.iTopLeft.iY⟩, ?_, ?_⟩
    · simp only [TPoint.InRange, InInt32]
      omega
    · simp only [TRect.Contains, Bool.and_eq_true, decide_eq_true_eq]
      omega

/--
Witness for C28: the rectangle (5,5,5,5) has int32 edges and is empty, so no
point is contained in it.
-/
theorem IsEmpty_iff_no_point_witness :
    (TRect.mk4 5 5 5 5).InRange ∧
    ¬ ∃ P : TPoint, P.InRange ∧ (TRect.mk4 5 5 5 5).Contains P = true :=
  ⟨by decide, (IsEmpty_iff_no_point (TRect.mk4 5 5 5 5) (by decide)).mp (by decide)⟩

/-! ## Theorems about the sample indices of `InterpolatedValue` -/

theorem InterpolatedValue_congr_reads {T : Type} [LinearOrderedField T] [FloorRing T]
    (UnknownValue : Int) (d1 d2 : Int → Int) (aWidth aHeight aStride aChannels : Int)
    (aX aY : T) (aChannel : Int)
    (h : ∀ i ∈ (InterpolatedValueReads aWidth aHeight aStride aChannels aX aY aChannel).toList,
      d1 i = d2 i) :
    InterpolatedValue UnknownValue d1 aWidth aHeight aStride aChannels aX aY aChannel =
      InterpolatedValue UnknownValue d2 aWidth aHeight aStride aChannels aX aY aChannel := by
  have h00 := h (truncToInt aY * aWidth * aChannels + truncToInt aX * aChannels + aChannel)
    (by simp only [InterpolatedValueReads, SampleReads.toList]; simp)
  by_cases hx : (if truncToInt aX = aWidth - 1 then (1 : T) else 1 - (aX - (⌊aX⌋ : T))) < 1
  · by_cases hy : (if truncToInt aY = aHeight - 1 then (1 : T) else 1 - (aY - (⌊aY⌋ : T))) < 1
    · have h10 := h (truncToInt aY * aWidth * aChannels + truncToInt aX * aChannels + aChannel
        + aChannels)
        (by simp only [InterpolatedValueReads, SampleReads.toList, hx, hy, if_true]; simp)
      have h01 := h (truncToInt aY * aWidth * aChannels + truncToInt aX * aChannels + aChannel
        + aStride * aChannels)
        (by simp only [InterpolatedValueReads, SampleReads.toList, hx, hy, if_true]; simp)
      have h11 := h (truncToInt aY * aWidth * aChannels + truncToInt aX * aChannels + aChannel
        + aStride * aChannels + aChannels)
        (by simp only [InterpolatedValueReads, SampleReads.toList, hx, hy, if_true]; simp)
      simp only [InterpolatedValue, hx, hy, if_true, h00, h10, h01, h11]
    · have h10 := h (truncToInt aY * aWidth * aChannels + truncToInt aX * aChannels + aChannel
        + aChannels)
        (by simp only [InterpolatedValueReads, SampleReads.toList, hx, hy, if_true, if_false]
            simp)
      simp only [InterpolatedValue, hx, hy, if_true, if_false, h00, h10]
  · by_cases hy : (if truncToInt aY = aHeight - 1 then (1 : T) else 1 - (aY - (⌊aY⌋ : T))) < 1
    · have h01 := h (truncToInt aY * aWidth * aChannels + truncToInt aX * aChannels + aChannel
        + aStride * aChannels)
        (by simp only [InterpolatedValueReads, SampleReads.toList, hx, hy, if_true, if_false]
            simp)
      simp only [InterpolatedValue, hx, hy, if_true, if_false, h00, h01]
    · simp only [InterpolatedValue, hx, hy, if_false, h00]

theorem three_halves_eq : (1 / 2 + 1 : ℚ) = 3 / 2 := by norm_num

theorem floor_three_halves : ⌊(3 / 2 : ℚ)⌋ = 1 := by
  rw [Int.floor_eq_iff]
  norm_num

/--
C24: with width 2, height 3, stride 3 and one channel, at (1/2,1/2) the
bottom-left sample (row 1, column 0) is read at index 3, which is
(row*stride + column)*channels + channel, but the call at (1/2,1/2+1) reads its
top-left sample, the same grid position, at index 2: the top row is addressed
with the width and not with the stride.
-/
theorem InterpolatedValue_row_index_mismatch :
    (InterpolatedValueReads 2 3 3 1 (1 / 2 : ℚ) (1 / 2) 0).bottomLeft = some 3 ∧
    (InterpolatedValueReads 2 3 3 1 (1 / 2 : ℚ) (1 / 2 + 1) 0).topLeft = 2 ∧
    sampleIndex 3 1 0 1 0 = 3 := by
  have ht : truncToInt (1 / 2 : ℚ) = 0 := by
    rw [truncToInt_of_floor_nonneg _ (by rw [floor_one_half]), floor_one_half]
  have ht3 : truncToInt (3 / 2 : ℚ) = 1 := by
    rw [truncToInt_of_floor_nonneg _ (by rw [floor_three_halves]; decide), floor_three_halves]
  refine ⟨?_, ?_, by decide⟩
  · simp only [InterpolatedValueReads, ht, floor_one_half]
    norm_num
  · rw [three_halves_eq]
    simp only [InterpolatedValueReads, ht, ht3]
    norm_num

theorem grid_index_bounds (W H C row col k : Int) (hr0 : 0 ≤ row) (hr1 : row < H)
    (hc0 : 0 ≤ col) (hc1 : col < W) (hk0 : 0 ≤ k) (hk1 : k < C) :
    0 ≤ row * W * C + col * C + k ∧ row * W * C + col * C + k < W * H * C := by
  have hW : 0 ≤ W := by omega
  have hC : 0 ≤ C := by omega
  have h1 : 0 ≤ row * W := mul_nonneg hr0 hW
  have h2 : 0 ≤ row * W * C := mul_nonneg h1 hC
  have h3 : 0 ≤ col * C := mul_nonneg hc0 hC
  have h4 : (row + 1) * W ≤ H * W := mul_le_mul_of_nonneg_right (by omega) hW
  have h5 : row * W + col + 1 ≤ H * W := by
    have : (row + 1) * W = row * W + W := by ring
    omega
  have h6 : (row * W + col + 1) * C ≤ H * W * C := mul_le_mul_of_nonneg_right h5 hC
  have h7 : (row * W + col + 1) * C = row * W * C + col * C + C := by ring
  have h8 : W * H * C = H * W * C := by ring
  constructor
  · omega
  · omega

theorem SampleReads_mem_toList (s : SampleReads) (i : Int) :
    i ∈ s.toList ↔
      (i = s.topLeft ∨ s.topRight = some i ∨ s.bottomLeft = some i ∨ s.bottomRight = some i) := by
  simp only [SampleReads.toList, List.mem_cons, List.mem_append, Option.mem_toList,
    Option.mem_def, or_assoc]

theorem fraction_lt_one_imp {T : Type} [LinearOrderedField T] [FloorRing T] (x : T) (n : Int)
    (h : (if truncToInt x = n - 1 then (1 : T) else 1 - (x - (⌊x⌋ : T))) < 1) :
    truncToInt x ≠ n - 1 := by
  intro hc
  rw [if_pos hc] at h
  exact lt_irrefl _ h

/--
C25: for stride equal to width, 0 <= x < width, 0 <= y < height and
0 <= channel < channels, every sample index read by `InterpolatedValue` lies in
[0, width*height*channels), so the result depends only on the samples inside
the grid; no right neighbour is read when floor(x) = width-1 and no bottom row
is read when floor(y) = height-1.
-/
theorem InterpolatedValue_reads_in_grid {T : Type} [LinearOrderedField T] [FloorRing T]
    (aWidth aHeight aStride aChannels aChannel : Int) (aX aY : T)
    (hS : aStride = aWidth) (hx0 : 0 ≤ aX) (hx1 : aX < (aWidth : T))
    (hy0 : 0 ≤ aY) (hy1 : aY < (aHeight : T)) (hk0 : 0 ≤ aChannel)
    (hk1 : aChannel < aChannels) :
    (∀ i ∈ (InterpolatedValueReads aWidth aHeight aStride aChannels aX aY aChannel).toList,
      0 ≤ i ∧ i < aWidth * aHeight * aChannels) ∧
    (∀ (UnknownValue : Int) (d1 d2 : Int → Int),
      (∀ i : Int, 0 ≤ i → i < aWidth * aHeight * aChannels → d1 i = d2 i) →
      InterpolatedValue UnknownValue d1 aWidth aHeight aStride aChannels aX aY aChannel =
        InterpolatedValue UnknownValue d2 aWidth aHeight aStride aChannels aX aY aChannel) ∧
    (⌊aX⌋ = aWidth - 1 →
      (InterpolatedValueReads aWidth aHeight aStride aChannels aX aY aChannel).topRight = none ∧
      (InterpolatedValueReads aWidth aHeight aStride aChannels aX aY aChannel).bottomRight
        = none) ∧
    (⌊aY⌋ = aHeight - 1 →
      (InterpolatedValueReads aWidth aHeight aStride aChannels aX aY aChannel).bottomLeft = none ∧
      (InterpolatedValueReads aWidth aHeight aStride aChannels aX aY aChannel).bottomRight
        = none) := by
  subst hS
  have hfx0 : 0 ≤ ⌊aX⌋ := Int.floor_nonneg.mpr hx0
  have hfy0 : 0 ≤ ⌊aY⌋ := Int.floor_nonneg.mpr hy0
  have hfx1 : ⌊aX⌋ < aStride := Int.floor_lt.mpr hx1
  have hfy1 : ⌊aY⌋ < aHeight := Int.floor_lt.mpr hy1
  have htx := truncToInt_of_floor_nonneg aX hfx0
  have hty := truncToInt_of_floor_nonneg aY hfy0
  have hrange : ∀ i ∈
      (InterpolatedValueReads aStride aHeight aStride aChannels aX aY aChannel).toList,
      0 ≤ i ∧ i < aStride * aHeight * aChannels := by
    intro i hi
    rw [SampleReads_mem_toList] at hi
    simp only [InterpolatedValueReads] at hi
    have e1 : (⌊aX⌋ + 1) * aChannels = ⌊aX⌋ * aChannels + aChannels := by ring
    have e2 : (⌊aY⌋ + 1) * aStride * aChannels =
        ⌊aY⌋ * aStride * aChannels + aStride * aChannels := by ring
    rcases hi with hi | hi | hi | hi
    · have hb := grid_index_bounds aStride aHeight aChannels ⌊aY⌋ ⌊aX⌋ aChannel hfy0 hfy1
        hfx0 hfx1 hk0 hk1
      rw [htx, hty] at hi
      omega
    · by_cases hx : (if truncToInt aX = aStride - 1 then (1 : T) else 1 - (aX - (⌊aX⌋ : T))) < 1
      · have cx := fraction_lt_one_imp aX aStride hx
        rw [htx] at cx
        have hb := grid_index_bounds aStride aHeight aChannels ⌊aY⌋ (⌊aX⌋ + 1) aChannel hfy0
          hfy1 (by omega) (by omega) hk0 hk1
        rw [if_pos hx, htx, hty, Option.some.injEq] at hi
        omega
      · rw [if_neg hx] at hi
        cases hi
    · by_cases hy : (if truncToInt aY = aHeight - 1 then (1 : T) else 1 - (aY - (⌊aY⌋ : T))) < 1
      · have cy := fraction_lt_one_imp aY aHeight hy
        rw [hty] at cy
        have hb := grid_index_bounds aStride aHeight aChannels (⌊aY⌋ + 1) ⌊aX⌋ aChannel
          (by omega) (by omega) hfx0 hfx1 hk0 hk1
        rw [if_pos hy, htx, hty, Option.some.injEq] at hi
        omega
      · rw [if_neg hy] at hi
        cases hi
    · by_cases hy : (if truncToInt aY = aHeight - 1 then (1 : T) else 1 - (aY - (⌊aY⌋ : T))) < 1
      · by_cases hx :
            (if truncToInt aX = aStride - 1 then (1 : T) else 1 - (aX - (⌊aX⌋ : T))) < 1
        · have cx := fraction_lt_one_imp aX aStride hx
          have cy := fraction_lt_one_imp aY aHeight hy
          rw [htx] at cx
          rw [hty] at cy
          have hb := grid_index_bounds aStride aHeight aChannels (⌊aY⌋ + 1) (⌊aX⌋ + 1) aChannel
            (by omega) (by omega) (by omega) (by omega) hk0 hk1
          rw [if_pos hy, if_pos hx, htx, hty, Option.some.injEq] at hi
          omega
        · rw [if_pos hy, if_neg hx] at hi
          cases hi
      · rw [if_neg hy] at hi
        cases hi
  refine ⟨hrange, ?_, ?_, ?_⟩
  · intro UnknownValue d1 d2 hd
    exact InterpolatedValue_congr_reads UnknownValue d1 d2 aStride aHeight aStride aChannels aX aY
      aChannel (fun i hi => hd i (hrange i hi).1 (hrange i hi).2)
  · intro cx
    simp only [InterpolatedValueReads, htx, cx, if_true, lt_self_iff_false, if_false, ite_self,
      and_self]
  · intro cy
    simp only [InterpolatedValueReads, hty, cy, if_true, lt_self_iff_false, if_false, and_self]

/--
Witness for C25: the 2×2 single-channel grid at (1/2,1/2) satisfies the
hypotheses, and all four indices read lie in [0, 4).
-/
theorem InterpolatedValue_reads_in_grid_witness :
    (0 : ℚ) ≤ 1 / 2 ∧ (1 / 2 : ℚ) < ((2 : Int) : ℚ) ∧
    ∀ i ∈ (InterpolatedValueReads 2 2 2 1 (1 / 2 : ℚ) (1 / 2) 0).toList,
      0 ≤ i ∧ i < 2 * 2 * 1 :=
  ⟨by norm_num, by norm_num,
    (InterpolatedValue_reads_in_grid 2 2 2 1 0 (1 / 2 : ℚ) (1 / 2) rfl (by norm_num)
      (by norm_num) (by norm_num) (by norm_num) (by decide) (by decide)).1⟩

/-! ## Theorems about the perpendicular unit vectors -/

/--
C26: over the reals, for every non-zero vector v, `v.LeftUnitVector()` is
perpendicular to v, has length 1 and is left of v; `v.RightUnitVector()` is its
negation and is right of v.
-/
theorem LeftUnitVector_RightUnitVector (v : TPoint2 ℝ) (hv : v ≠ ⟨0, 0⟩) :
    v.iX * (v.LeftUnitVector Real.sqrt).iX + v.iY * (v.LeftUnitVector Real.sqrt).iY = 0 ∧
    (v.LeftUnitVector Real.sqrt).VectorLength Real.sqrt = 1 ∧
    v.LeftOfVector (v.LeftUnitVector Real.sqrt) = true ∧
    v.RightUnitVector Real.sqrt =
      ⟨-(v.LeftUnitVector Real.sqrt).iX, -(v.LeftUnitVector Real.sqrt).iY⟩ ∧
    v.RightOfVector (v.RightUnitVector Real.sqrt) = true := by
  obtain ⟨x, y⟩ := v
  have hs : 0 < x * x + y * y := by
    rcases eq_or_ne x 0 with hx | hx
    · rcases eq_or_ne y 0 with hy | hy
      · exact absurd (by rw [hx, hy]) hv
      · have := mul_self_pos.mpr hy
        have := mul_self_nonneg x
        linarith
    · have := mul_self_pos.mpr hx
      have := mul_self_nonneg y
      linarith
  have hL : 0 < Real.sqrt (x * x + y * y) := Real.sqrt_pos.mpr hs
  have hne : Real.sqrt (x * x + y * y) ≠ 0 := ne_of_gt hL
  simp only [TPoint2.LeftUnitVector, TPoint2.RightUnitVector, TPoint2.UnitVector,
    TPoint2.VectorLength, TPoint2.LeftOfVector, TPoint2.RightOfVector, TPoint2.CrossProduct,
    gt_iff_lt, hL, if_true, decide_eq_true_eq, neg_neg]
  refine ⟨?_, ?_, ?_, trivial, ?_⟩
  · field_simp
    ring
  · have h1 : -(y / Real.sqrt (x * x + y * y)) * -(y / Real.sqrt (x * x + y * y)) +
        x / Real.sqrt (x * x + y * y) * (x / Real.sqrt (x * x + y * y)) = 1 := by
      field_simp
      ring
    rw [h1, Real.sqrt_one]
  · have h2 : x * (x / Real.sqrt (x * x + y * y)) - y * -(y / Real.sqrt (x * x + y * y)) =
        (x * x + y * y) / Real.sqrt (x * x + y * y) := by
      field_simp
    rw [h2]
    exact div_pos hs hL
  · have h3 : x * -(x / Real.sqrt (x * x + y * y)) - y * (y / Real.sqrt (x * x + y * y)) =
        -((x * x + y * y) / Real.sqrt (x * x + y * y)) := by
      field_simp
      ring
    rw [h3]
    exact neg_neg_of_pos (div_pos hs hL)

/--
Witness for C26: the vector (3,4) is not the zero vector; its left unit vector
has length 1 and lies left of it.
-/
theorem LeftUnitVector_RightUnitVector_witness :
    (⟨3, 4⟩ : TPoint2 ℝ) ≠ ⟨0, 0⟩ ∧
    ((⟨3, 4⟩ : TPoint2 ℝ).LeftUnitVector Real.sqrt).VectorLength Real.sqrt = 1 ∧
    (⟨3, 4⟩ : TPoint2 ℝ).LeftOfVector ((⟨3, 4⟩ : TPoint2 ℝ).LeftUnitVector Real.sqrt) = true :=
  have h : (⟨3, 4⟩ : TPoint2 ℝ) ≠ ⟨0, 0⟩ := by
    intro h
    have h1 := congrArg TPoint2.iX h
    norm_num at h1
  ⟨h, (LeftUnitVector_RightUnitVector ⟨3, 4⟩ h).2.1,
    (LeftUnitVector_RightUnitVector ⟨3, 4⟩ h).2.2.1⟩

/-! ## Theorems about `TPoint::ComparisonValue` and `TRect::Center` -/

theorem ComparisonValue_eq (p : TPoint) (hp : p.InRange) :
    (p.ComparisonValue : Int) =
      if 0 ≤ p.iX * 4294967296 + p.iY then p.iX * 4294967296 + p.iY
      else p.iX * 4294967296 + p.iY + 18446744073709551616 := by
  simp only [TPoint.InRange, InInt32] at hp
  have hs : toUint64 p.iX <<< 32 = toUint64 p.iX * 4294967296 := by
    rw [Nat.shiftLeft_eq]
  unfold TPoint.ComparisonValue
  rw [hs]
  unfold toUint64
  split_ifs <;> omega

/--
C27, as stated, fails: (-1,0) < (0,0) under `operator<`, but the comparison
value of (-1,0) is 0xFFFFFFFF00000000, which is not below the comparison value
0 of (0,0).
-/
theorem ComparisonValue_order_fails :
    ¬ (TPoint.opLt ⟨-1, 0⟩ ⟨0, 0⟩ = true ↔
        TPoint.ComparisonValue ⟨-1, 0⟩ < TPoint.ComparisonValue ⟨0, 0⟩) := by
  decide

/--
C27, amended: for all int32 points p and q that lie on the same side of the
origin in the order of `operator<` (both below (0,0), or both not below it, as
is the case for all points with non-negative coordinates), p < q if and only if
p.ComparisonValue() < q.ComparisonValue() as unsigned 64-bit numbers; if p is
below (0,0) and q is not, then p < q but q.ComparisonValue() <
p.ComparisonValue(). Distinct points have distinct comparison values.
-/
theorem ComparisonValue_order (p q : TPoint) (hp : p.InRange) (hq : q.InRange) :
    (p.opLt ⟨0, 0⟩ = q.opLt ⟨0, 0⟩ →
      (p.opLt q = true ↔ p.ComparisonValue < q.ComparisonValue)) ∧
    (p.opLt ⟨0, 0⟩ = true → q.opLt ⟨0, 0⟩ = false →
      p.opLt q = true ∧ q.ComparisonValue < p.ComparisonValue) ∧
    (p.ComparisonValue = q.ComparisonValue → p = q) := by
  have ep := ComparisonValue_eq p hp
  have eq := ComparisonValue_eq q hq
  simp only [TPoint.InRange, InInt32] at hp hq
  refine ⟨?_, ?_, ?_⟩
  · intro h
    rw [Bool.eq_iff_iff, TPoint_opLt_iff, TPoint_opLt_iff] at h
    dsimp only at h
    rw [TPoint_opLt_iff]
    rcases le_or_lt 0 (p.iX * 4294967296 + p.iY) with h1 | h1
    · rw [if_pos h1] at ep
      rcases le_or_lt 0 (q.iX * 4294967296 + q.iY) with h2 | h2
      · rw [if_pos h2] at eq
        omega
      · rw [if_neg (not_le.mpr h2)] at eq
        omega
    · rw [if_neg (not_le.mpr h1)] at ep
      rcases le_or_lt 0 (q.iX * 4294967296 + q.iY) with h2 | h2
      · rw [if_pos h2] at eq
        omega
      · rw [if_neg (not_le.mpr h2)] at eq
        omega
  · intro h1 h2
    rw [← Bool.not_eq_true, TPoint_opLt_iff] at h2
    rw [TPoint_opLt_iff] at h1
    dsimp only at h1 h2
    rw [TPoint_opLt_iff]
    have k1 : ¬ (0 ≤ p.iX * 4294967296 + p.iY) := by omega
    have k2 : 0 ≤ q.iX * 4294967296 + q.iY := by omega
    rw [if_neg k1] at ep
    rw [if_pos k2] at eq
    omega
  · intro h
    obtain ⟨px, py⟩ := p
    obtain ⟨qx, qy⟩ := q
    dsimp only at ep eq hp hq
    rw [h] at ep
    have hxy : px = qx ∧ py = qy := by
      rcases le_or_lt 0 (px * 4294967296 + py) with h1 | h1
      · rw [if_pos h1] at ep
        rcases le_or_lt 0 (qx * 4294967296 + qy) with h2 | h2
        · rw [if_pos h2] at eq
          omega
        · rw [if_neg (not_le.mpr h2)] at eq
          omega
      · rw [if_neg (not_le.mpr h1)] at ep
        rcases le_or_lt 0 (qx * 4294967296 + qy) with h2 | h2
        · rw [if_pos h2] at eq
          omega
        · rw [if_neg (not_le.mpr h2)] at eq
          omega
    rw [hxy.1, hxy.2]

/--
Witness for C27: (1,2) and (1,3) have non-negative int32 coordinates, and the
order of their comparison values agrees with `operator<`; (-1,0) is below the
origin, (0,0) is not, and their comparison values are in the opposite order.
-/
theorem ComparisonValue_order_witness :
    TPoint.InRange ⟨1, 2⟩ ∧ TPoint.InRange ⟨1, 3⟩ ∧
    TPoint.opLt ⟨1, 2⟩ ⟨0, 0⟩ = TPoint.opLt ⟨1, 3⟩ ⟨0, 0⟩ ∧
    (TPoint.opLt ⟨1, 2⟩ ⟨1, 3⟩ = true ↔
      TPoint.ComparisonValue ⟨1, 2⟩ < TPoint.ComparisonValue ⟨1, 3⟩) ∧
    TPoint.opLt ⟨-1, 0⟩ ⟨0, 0⟩ = true ∧ TPoint.opLt ⟨0, 0⟩ ⟨0, 0⟩ = false ∧
    TPoint.ComparisonValue ⟨0, 0⟩ < TPoint.ComparisonValue ⟨-1, 0⟩ :=
  ⟨by decide, by decide, by decide,
    (ComparisonValue_order ⟨1, 2⟩ ⟨1, 3⟩ (by decide) (by decide)).1 (by decide),
    by decide, by decide,
    ((ComparisonValue_order ⟨-1, 0⟩ ⟨0, 0⟩ (by decide) (by decide)).2.1 (by decide)
      (by decide)).2⟩

theorem tdiv_two_eq (a : Int) :
    a.tdiv 2 = if 0 ≤ a then a / 2 else -((-a) / 2) := by
  split_ifs with h
  · exact Int.tdiv_eq_ediv h (by decide)
  · have h1 : a = -(-a) := (Int.neg_neg a).symm
    have h2 : (-a).tdiv 2 = (-a) / 2 := Int.tdiv_eq_ediv (by omega) (by decide)
    rw [h1, Int.neg_tdiv, h2, Int.neg_neg]

/--
C29, as stated, fails: the rectangle (-3,0,-2,10) is non-empty and its sums do
not overflow, but (-3 + -2) / 2 truncates toward zero to -2, the right edge, so
the centre (-2,5) is not contained.
-/
theorem Contains_Center_fails :
    (TRect.mk4 (-3) 0 (-2) 10).IsEmpty = false ∧
    InInt32 ((TRect.mk4 (-3) 0 (-2) 10).Left + (TRect.mk4 (-3) 0 (-2) 10).Right) ∧
    InInt32 ((TRect.mk4 (-3) 0 (-2) 10).Top + (TRect.mk4 (-3) 0 (-2) 10).Bottom) ∧
    (TRect.mk4 (-3) 0 (-2) 10).Center = ⟨-2, 5⟩ ∧
    ¬ ((TRect.mk4 (-3) 0 (-2) 10).Contains (TRect.mk4 (-3) 0 (-2) 10).Center = true) := by
  decide

/--
C29, amended: for every non-empty rectangle R whose sums left+right and
top+bottom do not overflow int32, `R.Contains(R.Center())` holds if and only if
(left + right >= 0 or the width is at least 2) and (top + bottom >= 0 or the
height is at least 2).
-/
theorem Contains_Center_iff (R : TRect) (hE : R.IsEmpty = false)
    (hx : InInt32 (R.Left + R.Right)) (hy : InInt32 (R.Top + R.Bottom)) :
    R.Contains R.Center = true ↔
      ((0 ≤ R.Left + R.Right ∨ R.Left + 2 ≤ R.Right) ∧
        (0 ≤ R.Top + R.Bottom ∨ R.Top + 2 ≤ R.Bottom)) := by
  simp only [TRect.IsEmpty, TRect.Left, TRect.Right, TRect.Top, TRect.Bottom,
    Bool.or_eq_false_iff, decide_eq_false_iff_not] at hE
  simp only [InInt32, TRect.Left, TRect.Right, TRect.Top, TRect.Bottom] at hx hy
  have wx : toInt32 (R.iTopLeft.iX + R.iBottomRight.iX) = R.iTopLeft.iX + R.iBottomRight.iX := by
    unfold toInt32
    omega
  have wy : toInt32 (R.iTopLeft.iY + R.iBottomRight.iY) = R.iTopLeft.iY + R.iBottomRight.iY := by
    unfold toInt32
    omega
  simp only [TRect.Contains, TRect.Center, TRect.Left, TRect.Right, TRect.Top, TRect.Bottom, wx,
    wy, tdiv_two_eq, Bool.and_eq_true, decide_eq_true_eq]
  split_ifs <;> omega

/--
Witness for C29: the rectangle (0,0,10,10) is non-empty, its sums do not
overflow, and it contains its centre.
-/
theorem Contains_Center_iff_witness :
    (TRect.mk4 0 0 10 10).IsEmpty = false ∧
    InInt32 ((TRect.mk4 0 0 10 10).Left + (TRect.mk4 0 0 10 10).Right) ∧
    InInt32 ((TRect.mk4 0 0 10 10).Top + (TRect.mk4 0 0 10 10).Bottom) ∧
    (TRect.mk4 0 0 10 10).Contains (TRect.mk4 0 0 10 10).Center = true :=
  ⟨by decide, by decide, by decide,
    (Contains_Center_iff (TRect.mk4 0 0 10 10) (by decide) (by decide) (by decide)).mpr
      (by decide)⟩

/-! ## Theorems about `Reverse` -/

theorem ReverseLoop_apply {T : Type} (n : Nat) :
    ∀ (mem : Nat → T) (aStart aEnd : Nat), aEnd - aStart = n → ∀ i : Nat,
      ReverseLoop mem aStart aEnd i =
        if aStart ≤ i ∧ i ≤ aEnd then mem (aStart + aEnd - i) else mem i := by
  induction n using Nat.strong_induction_on with
  | _ n ih =>
    intro mem aStart aEnd hn i
    rw [ReverseLoop]
    by_cases hlt : aStart < aEnd
    · rw [if_pos hlt, ih (aEnd - 1 - (aStart + 1)) (by omega) _ (aStart + 1) (aEnd - 1) rfl i]
      by_cases h1 : aStart + 1 ≤ i ∧ i ≤ aEnd - 1
      · have h2 : aStart ≤ i ∧ i ≤ aEnd := by omega
        have h3 : aStart + 1 + (aEnd - 1) - i ≠ aStart := by omega
        have h4 : aStart + 1 + (aEnd - 1) - i ≠ aEnd := by omega
        have h5 : aStart + 1 + (aEnd - 1) - i = aStart + aEnd - i := by omega
        rw [if_pos h1, if_pos h2, if_neg h3, if_neg h4, h5]
      · rw [if_neg h1]
        by_cases h6 : i = aStart
        · have h2 : aStart ≤ i ∧ i ≤ aEnd := by omega
          have h7 : aStart + aEnd - i = aEnd := by omega
          rw [if_pos h6, if_pos h2, h7]
        · by_cases h8 : i = aEnd
          · have h2 : aStart ≤ i ∧ i ≤ aEnd := by omega
            have h7 : aStart + aEnd - i = aStart := by omega
            rw [if_neg h6, if_pos h8, if_pos h2, h7]
          · have h2 : ¬ (aStart ≤ i ∧ i ≤ aEnd) := by omega
            rw [if_neg h6, if_neg h8, if_neg h2]
    · rw [if_neg hlt]
      by_cases h2 : aStart ≤ i ∧ i ≤ aEnd
      · have h7 : aStart + aEnd - i = i := by omega
        rw [if_pos h2, h7]
      · rw [if_neg h2]

theorem Reverse_apply {T : Type} (mem : Nat → T) (aLength i : Nat) :
    Reverse mem aLength i = if i < aLength then mem (aLength - 1 - i) else mem i := by
  unfold Reverse
  by_cases h : aLength > 1
  · rw [if_pos h, ReverseLoop_apply (aLength - 1 - 0) mem 0 (aLength - 1) rfl i]
    by_cases h1 : i < aLength
    · have h2 : 0 ≤ i ∧ i ≤ aLength - 1 := by omega
      have h3 : 0 + (aLength - 1) - i = aLength - 1 - i := by omega
      rw [if_pos h1, if_pos h2, h3]
    · have h2 : ¬ (0 ≤ i ∧ i ≤ aLength - 1) := by omega
      rw [if_neg h1, if_neg h2]
  · rw [if_neg h]
    by_cases h1 : i < aLength
    · have h3 : aLength - 1 - i = i := by omega
      rw [if_pos h1, h3]
    · rw [if_neg h1]

/--
C30: `Reverse` is a total function (its loop terminates for every length,
since the distance between the two pointers decreases), and it reverses the
array in place: afterwards element i is the original element aLength-1-i for
every i < aLength and the elements from aLength on are untouched; lengths 0
and 1 leave the array unchanged; reversing twice restores the original array.
-/
theorem Reverse_reverses {T : Type} (mem : Nat → T) (aLength : Nat) :
    (∀ i : Nat, i < aLength → Reverse mem aLength i = mem (aLength - 1 - i)) ∧
    (∀ i : Nat, aLength ≤ i → Reverse mem aLength i = mem i) ∧
    (aLength ≤ 1 → Reverse mem aLength = mem) ∧
    Reverse (Reverse mem aLength) aLength = mem := by
  refine ⟨?_, ?_, ?_, ?_⟩
  · intro i hi
    rw [Reverse_apply, if_pos hi]
  · intro i hi
    rw [Reverse_apply, if_neg (by omega)]
  · intro h
    unfold Reverse
    rw [if_neg (by omega)]
  · funext i
    rw [Reverse_apply, Reverse_apply]
    by_cases h : i < aLength
    · have h1 : aLength - 1 - i < aLength := by omega
      have h2 : aLength - 1 - (aLength - 1 - i) = i := by omega
      rw [if_pos h, if_pos h1, h2]
    · rw [if_neg h, Reverse_apply, if_neg h]

/--
Witness for C30: reversing the first five elements of 0, 10, 20, ... puts 30 at
offset 1 and leaves offset 7 untouched; an array of length 1 is unchanged.
-/
theorem Reverse_reverses_witness :
    Reverse (fun i : Nat => i * 10) 5 1 = 30 ∧
    Reverse (fun i : Nat => i * 10) 5 7 = 70 ∧
    Reverse (fun i : Nat => i * 10) 1 = (fun i : Nat => i * 10) :=
  ⟨(Reverse_reverses (fun i : Nat => i * 10) 5).1 1 (by decide),
    (Reverse_reverses (fun i : Nat => i * 10) 5).2.1 7 (by decide),
    (Reverse_reverses (fun i : Nat => i * 10) 1).2.2.1 (by decide)⟩

end CartoType
